import Mathlib

/-!
Verification of the netpulsar network-probe core against its specification.

The Rust sources under `src-tauri/src` are shallowly embedded below: pure
functions become Lean functions, the probe loops become pure functions over an
explicit environment describing the network outcomes (send errors, timeouts,
received datagrams), machine integers become `Nat` with an explicit `% 2^w`
at the points where the Rust code casts or could overflow, and fallible code
returns `Option` / `Except`.  Byte buffers are `List Nat` (each byte < 256 in
every buffer the embedded builders produce).

The `nex_packet` library calls (`Icmpv6Packet::from_buf`,
`Ipv4Packet::from_buf`, `IcmpPacket::from_bytes`,
`EchoReplyPacket::try_from`, the echo builders) are modelled from the wire
formats of RFC 792 / RFC 4443 and the specification text describing them
(spec section 4.2); each such model carries a doc comment saying so.
-/

namespace NetPulsar

/-! ## Addresses and shared model types (src-tauri/src/model) -/

/-- IP address: the family tag plus the raw octets.  Mirrors `std::net::IpAddr`
as used by the probe code (family dispatch and equality). -/
inductive IpAddr where
  | v4 (octets : List Nat)
  | v6 (octets : List Nat)
deriving DecidableEq, Repr

/-- `IpAddr::is_ipv4`. -/
def IpAddr.is_ipv4 : IpAddr → Bool
  | .v4 _ => true
  | .v6 _ => false

/-- `ProbeStatusKind` from model/probe.rs. -/
inductive ProbeStatusKind where
  | Done
  | Error
  | Timeout
deriving DecidableEq, Repr

/-- `ProbeStatus` from model/probe.rs. -/
structure ProbeStatus where
  kind : ProbeStatusKind
  message : String
deriving DecidableEq, Repr

/-- `ProbeStatus::new()`: Done with empty message. -/
def ProbeStatus.new : ProbeStatus := ⟨.Done, ""⟩

/-- `ProbeStatus::with_error_message`. -/
def ProbeStatus.with_error_message (m : String) : ProbeStatus := ⟨.Error, m⟩

/-- `ProbeStatus::with_timeout_message`. -/
def ProbeStatus.with_timeout_message (m : String) : ProbeStatus := ⟨.Timeout, m⟩

/-! ## Byte-level helpers (internet checksum, 16-bit fields) -/

/-- Pair up bytes into big-endian 16-bit words, zero-padding a trailing odd
byte (RFC 1071 layout used by the `nex_packet` checksum). -/
def toWords16 : List Nat → List Nat
  | [] => []
  | [b] => (b % 256) * 256 :: []
  | b1 :: b2 :: rest => ((b1 % 256) * 256 + b2 % 256) :: toWords16 rest

/-- One step of 16-bit one's-complement addition with end-around carry; for
`a b < 2^16` the two carry folds below suffice. -/
def onesAdd (a b : Nat) : Nat :=
  let s := a + b
  let s1 := s % 65536 + s / 65536
  s1 % 65536 + s1 / 65536

/-- Internet checksum of a byte buffer (one's complement of the
one's-complement sum), as computed by the `nex_packet` builders.  The parsers
in packet.rs never verify it. -/
def checksum16 (bytes : List Nat) : Nat :=
  65535 - (toWords16 bytes).foldl onesAdd 0

/-- High byte of a 16-bit big-endian field. -/
def hi16 (x : Nat) : Nat := x / 256 % 256

/-- Low byte of a 16-bit big-endian field. -/
def lo16 (x : Nat) : Nat := x % 256

/-! ## Packet codec (src-tauri/src/probe/packet.rs and its nex_packet calls) -/

/-- ICMPv6 header: type, code, checksum.  Models `nex_packet::icmpv6`'s
header (4 bytes on the wire, RFC 4443). -/
structure Icmpv6Header where
  icmpv6_type : Nat
  code : Nat
  checksum : Nat
deriving DecidableEq, Repr

/-- Generic ICMPv6 message.  Models `nex_packet::icmpv6::Icmpv6Packet`. -/
structure Icmpv6Packet where
  header : Icmpv6Header
  payload : List Nat
deriving DecidableEq, Repr

/-- Models `Icmpv6Packet::from_buf`: succeeds on any buffer holding at least
the 4-byte ICMPv6 header; the checksum cannot be validated here (it covers the
IPv6 pseudo-header, which a bare ICMPv6 buffer does not contain). -/
def Icmpv6Packet.from_buf : List Nat → Option Icmpv6Packet
  | t :: c :: ckHi :: ckLo :: rest =>
    some ⟨⟨t, c, (ckHi % 256) * 256 + ckLo % 256⟩, rest⟩
  | _ => none

/-- ICMPv6 Echo Reply view.  Models
`nex_packet::icmpv6::echo_reply::EchoReplyPacket`. -/
structure Icmpv6EchoReplyPacket where
  header : Icmpv6Header
  identifier : Nat
  sequence_number : Nat
  payload : List Nat
deriving DecidableEq, Repr

/-- Models `Icmpv6EchoReplyPacket::from_buf`: requires the Echo Reply type
(129) and the 8-byte echo header carrying identifier and sequence number. -/
def Icmpv6EchoReplyPacket.from_buf : List Nat → Option Icmpv6EchoReplyPacket
  | t :: c :: ckHi :: ckLo :: idHi :: idLo :: sqHi :: sqLo :: rest =>
    if t = 129 then
      some ⟨⟨t, c, (ckHi % 256) * 256 + ckLo % 256⟩,
        (idHi % 256) * 256 + idLo % 256, (sqHi % 256) * 256 + sqLo % 256, rest⟩
    else none
  | _ => none

/-- ICMPv4 header (4 bytes: type, code, checksum).  Models
`nex_packet::icmp`'s header. -/
structure IcmpHeader where
  icmp_type : Nat
  code : Nat
  checksum : Nat
deriving DecidableEq, Repr

/-- Generic ICMPv4 message.  Models `nex_packet::icmp::IcmpPacket`. -/
structure IcmpPacket where
  header : IcmpHeader
  payload : List Nat
deriving DecidableEq, Repr

/-- Models `IcmpPacket::from_bytes`: any buffer with the 4-byte header. -/
def IcmpPacket.from_bytes : List Nat → Option IcmpPacket
  | t :: c :: ckHi :: ckLo :: rest =>
    some ⟨⟨t, c, (ckHi % 256) * 256 + ckLo % 256⟩, rest⟩
  | _ => none

/-- ICMPv4 Echo Reply view.  Models
`nex_packet::icmp::echo_reply::EchoReplyPacket`. -/
structure EchoReplyPacket where
  header : IcmpHeader
  identifier : Nat
  sequence_number : Nat
  payload : List Nat
deriving DecidableEq, Repr

/-- Models `EchoReplyPacket::try_from(IcmpPacket)`: per spec section 4.2 the
IPv4 echo-reply parse "requires type 0"; the echo body must carry the 4-byte
identifier/sequence block. -/
def EchoReplyPacket.try_from (p : IcmpPacket) : Option EchoReplyPacket :=
  if p.header.icmp_type = 0 then
    match p.payload with
    | idHi :: idLo :: sqHi :: sqLo :: rest =>
      some ⟨p.header, (idHi % 256) * 256 + idLo % 256,
        (sqHi % 256) * 256 + sqLo % 256, rest⟩
    | _ => none
  else none

/-- IPv4 header fields the probe code reads.  Models
`nex_packet::ipv4::Ipv4Packet`'s header. -/
structure Ipv4Header where
  version : Nat
  ihl : Nat
  next_level_protocol : Nat
  source : List Nat
  destination : List Nat
deriving DecidableEq, Repr

/-- Parsed IPv4 packet. -/
structure Ipv4Packet where
  header : Ipv4Header
  payload : List Nat
deriving DecidableEq, Repr

/-- Models `Ipv4Packet::from_buf`: needs the fixed 20-byte header, version 4,
IHL at least 5, and enough bytes for the options; the payload is everything
after the header (the kernel hands the probe exact-sized datagrams). -/
def Ipv4Packet.from_buf : List Nat → Option Ipv4Packet
  | b0 :: _b1 :: _b2 :: _b3 :: _b4 :: _b5 :: _b6 :: _b7 :: _b8 :: b9 :: _b10 ::
      _b11 :: s0 :: s1 :: s2 :: s3 :: d0 :: d1 :: d2 :: d3 :: rest =>
    let version := b0 / 16
    let ihl := b0 % 16
    if version = 4 ∧ 5 ≤ ihl ∧ ihl * 4 - 20 ≤ rest.length then
      some ⟨⟨version, ihl, b9, [s0, s1, s2, s3], [d0, d1, d2, d3]⟩,
        rest.drop (ihl * 4 - 20)⟩
    else none
  | _ => none

/-- Builds the ICMPv4 Echo Request message bytes (type 8, code 0, checksum
over the message) exactly as `IcmpPacketBuilder` emits them. -/
def buildIcmpEchoV4 (id seq : Nat) (payload : List Nat) : List Nat :=
  let body := hi16 id :: lo16 id :: hi16 seq :: lo16 seq :: payload.map (· % 256)
  let ck := checksum16 (8 :: 0 :: 0 :: 0 :: body)
  8 :: 0 :: hi16 ck :: lo16 ck :: body

/-- Pads/truncates an octet list to exactly 4 bytes. -/
def pad4 (l : List Nat) : List Nat := (l.map (· % 256) ++ [0, 0, 0, 0]).take 4

/-- Pads/truncates an octet list to exactly 16 bytes. -/
def pad16 (l : List Nat) : List Nat :=
  (l.map (· % 256) ++ List.replicate 16 0).take 16

/-- Builds the ICMPv6 Echo Request message bytes (type 128, code 0, checksum
over the IPv6 pseudo-header and the message, RFC 4443) as
`Icmpv6PacketBuilder` emits them. -/
def buildIcmpv6Echo (src dst : List Nat) (id seq : Nat) (payload : List Nat) :
    List Nat :=
  let body := hi16 id :: lo16 id :: hi16 seq :: lo16 seq :: payload.map (· % 256)
  let msgLen := 4 + body.length
  let pseudo := pad16 src ++ pad16 dst ++
    [msgLen / 16777216 % 256, msgLen / 65536 % 256, hi16 msgLen, lo16 msgLen,
     0, 0, 0, 58]
  let ck := checksum16 (pseudo ++ 128 :: 0 :: 0 :: 0 :: body)
  128 :: 0 :: hi16 ck :: lo16 ck :: body

/-- `build_icmp_echo_bytes` from probe/packet.rs.  The Rust function panics on
a family mismatch; the embedding returns `none` there. -/
def build_icmp_echo_bytes (src dst : IpAddr) (id seq : Nat)
    (payload : List Nat) : Option (List Nat) :=
  match src, dst with
  | .v4 _, .v4 _ => some (buildIcmpEchoV4 id seq payload)
  | .v6 s, .v6 d => some (buildIcmpv6Echo s d id seq payload)
  | _, _ => none

/-- `parse_icmp_echo_v4` from probe/packet.rs: IPv4 header, protocol ICMP (1),
then the echo-reply view of the ICMP message. -/
def parse_icmp_echo_v4 (buf : List Nat) : Option EchoReplyPacket :=
  match Ipv4Packet.from_buf buf with
  | some ipv4_packet =>
    if ipv4_packet.header.next_level_protocol = 1 then
      match IcmpPacket.from_bytes ipv4_packet.payload with
      | some icmp_packet => EchoReplyPacket.try_from icmp_packet
      | none => none
    else none
  | none => none

/-- `parse_icmp_echo_v6` from probe/packet.rs: parses the bare ICMPv6 message;
on type 129 returns the echo-reply view (or a zero-id/seq fallback when the
body is short), and on any other type returns the same zero-id/seq fallback. -/
def parse_icmp_echo_v6 (buf : List Nat) : Option Icmpv6EchoReplyPacket :=
  match Icmpv6Packet.from_buf buf with
  | some icmpv6_packet =>
    if icmpv6_packet.header.icmpv6_type = 129 then
      match Icmpv6EchoReplyPacket.from_buf buf with
      | some reply => some reply
      | none => some ⟨icmpv6_packet.header, 0, 0, icmpv6_packet.payload⟩
    else some ⟨icmpv6_packet.header, 0, 0, icmpv6_packet.payload⟩
  | none => none

/-- Wraps an ICMP message in a minimal 20-byte IPv4 header with the given
protocol number and source/destination octets (the "wrapped in an IPv4
header" of the round-trip claim). -/
def wrap_ipv4 (proto : Nat) (src dst : List Nat) (payload : List Nat) :
    List Nat :=
  let totalLen := 20 + payload.length
  69 :: 0 :: hi16 totalLen :: lo16 totalLen :: 0 :: 0 :: 0 :: 0 :: 64 ::
    proto % 256 :: 0 :: 0 :: (pad4 src ++ pad4 dst ++ payload)

/-- Replaces the first byte (the ICMP type) of a message. -/
def with_type (t : Nat) : List Nat → List Nat
  | [] => []
  | _ :: rest => t :: rest

/-- Loopback IPv4 octets used in concrete codec runs. -/
def lo4 : List Nat := [127, 0, 0, 1]

/-- Loopback IPv6 octets used in concrete codec runs. -/
def lo6 : List Nat := [0, 0, 0, 0, 0, 0, 0, 0, 0, 0, 0, 0, 0, 0, 0, 1]

/-! ## Ping engine (src-tauri/src/probe/ping/icmp.rs, command/ping.rs) -/

/-- One u64 past the maximum: `u64` values live below this. -/
def U64_LIMIT : Nat := 2 ^ 64

/-- One u128 past the maximum: `u128` values live below this. -/
def U128_LIMIT : Nat := 2 ^ 128

/-- `PingProtocol` from model/ping.rs. -/
inductive PingProtocol where
  | Icmp
  | Tcp
  | Udp
  | Quic
  | Http
deriving DecidableEq, Repr

/-- `PingSetting` from model/ping.rs.  `count` is a `u32`, `timeout_ms` and
`send_rate_ms` are `u64`, `hop_limit` is a `u8`. -/
structure PingSetting where
  ip_addr : IpAddr
  hostname : Option String
  port : Option Nat
  hop_limit : Nat
  protocol : PingProtocol
  count : Nat
  timeout_ms : Nat
  send_rate_ms : Nat
deriving DecidableEq, Repr

/-- `PingSample` from model/ping.rs. -/
structure PingSample where
  seq : Nat
  ip_addr : IpAddr
  hostname : Option String
  port : Option Nat
  rtt_ms : Option Nat
  probe_status : ProbeStatus
  protocol : PingProtocol
deriving DecidableEq, Repr

/-- `PingStat` from model/ping.rs. -/
structure PingStat where
  ip_addr : IpAddr
  hostname : Option String
  port : Option Nat
  protocol : PingProtocol
  samples : List PingSample
  transmitted_count : Nat
  received_count : Nat
  min : Option Nat
  avg : Option Nat
  max : Option Nat
deriving DecidableEq, Repr

instance : Inhabited PingStat :=
  ⟨⟨.v4 [], none, none, .Icmp, [], 0, 0, none, none, none⟩⟩

/-- `summarize_rtts` from probe/ping/icmp.rs: min starts at `u64::MAX`, max
at 0, the sum is accumulated in a `u128` and the average is the truncating
division cast back to `u64`. -/
def summarize_rtts (rtts_ms : List Nat) : Option Nat × Option Nat × Option Nat :=
  if rtts_ms.isEmpty then (none, none, none)
  else
    let mn := rtts_ms.foldl (fun m v => if v < m then v else m) (U64_LIMIT - 1)
    let mx := rtts_ms.foldl (fun m v => if m < v then v else m) 0
    let sum := rtts_ms.foldl (fun s v => (s + v) % U128_LIMIT) 0
    let avg := (sum / rtts_ms.length) % U64_LIMIT
    (some mn, some avg, some mx)

/-- What the network did for one ping probe: the send failed, the wait timed
out, the receive failed, or a datagram with the given bytes arrived. -/
inductive PingRecvOutcome where
  | sendErr (msg : String)
  | timeout
  | recvErr (msg : String)
  | reply (buf : List Nat)

/-- Environment of one ICMP ping run: whether the ICMP socket opened, the
per-sequence network outcome, and the elapsed milliseconds measured when a
reply arrived (the `Instant::elapsed().as_millis()` value, a `u128`). -/
structure PingNetEnv where
  socket_ok : Bool
  outcome : Nat → PingRecvOutcome
  elapsedMs : Nat → Nat

/-- The reply check of icmp_ping: family-dispatched parse succeeds. -/
def icmp_reply_ok (ip : IpAddr) (buf : List Nat) : Bool :=
  match ip with
  | .v4 _ => (parse_icmp_echo_v4 buf).isSome
  | .v6 _ => (parse_icmp_echo_v6 buf).isSome

/-- One iteration of the icmp_ping loop (probe/ping/icmp.rs lines 73-146):
build/send an Echo Request, classify the outcome into a `PingSample`. -/
def mk_ping_sample (setting : PingSetting) (env : PingNetEnv) (seq : Nat) :
    PingSample :=
  let stRtt : Option Nat × ProbeStatus :=
    match env.outcome seq with
    | .sendErr m => (none, ProbeStatus.with_error_message ("send error: " ++ m))
    | .timeout =>
      (none, ProbeStatus.with_timeout_message
        ("timeout (>" ++ toString setting.timeout_ms ++ "ms)"))
    | .recvErr m => (none, ProbeStatus.with_error_message ("recv error: " ++ m))
    | .reply buf =>
      if icmp_reply_ok setting.ip_addr buf then
        (some (env.elapsedMs seq % U64_LIMIT), ProbeStatus.new)
      else (none, ProbeStatus.with_error_message "unexpected reply")
  ⟨seq, setting.ip_addr, setting.hostname, none, stRtt.1, stRtt.2, .Icmp⟩

/-- The RTTs pushed onto `rtts_ok` by the loop: one entry per sequence whose
reply parsed (the same branch that leaves the sample status `Done`). -/
def ping_rtt_ok (setting : PingSetting) (env : PingNetEnv) (seq : Nat) :
    Option Nat :=
  match env.outcome seq with
  | .reply buf =>
    if icmp_reply_ok setting.ip_addr buf then
      some (env.elapsedMs seq % U64_LIMIT)
    else none
  | _ => none

/-- `icmp_ping` from probe/ping/icmp.rs as a pure function of the network
environment: socket creation may fail (the only `Err` path), then one sample
per `seq` in `1..=count`, then the summary.  No validation of `count` or
`timeout_ms` happens anywhere. -/
def icmp_ping_model (setting : PingSetting) (env : PingNetEnv) :
    Except String PingStat :=
  if ¬ env.socket_ok then .error "failed to create ICMP socket" else
  let samples := (List.range' 1 setting.count).map (mk_ping_sample setting env)
  let rtts_ok := (List.range' 1 setting.count).filterMap
    (ping_rtt_ok setting env)
  let transmitted := samples.length
  let received := (samples.filter
    (fun s => s.rtt_ms.isSome && decide (s.probe_status.kind = .Done))).length
  let mam := summarize_rtts rtts_ok
  .ok ⟨setting.ip_addr, setting.hostname, none, .Icmp, samples, transmitted,
    received, mam.1, mam.2.1, mam.2.2⟩

/-- The `ping` Tauri command (command/ping.rs) for the ICMP protocol: resolve
the default interface and a source address (both may fail), then run the
engine.  The command performs no validation of the setting. -/
def ping_command_icmp (iface_ok src_ok : Bool) (setting : PingSetting)
    (env : PingNetEnv) : Except String PingStat :=
  if ¬ iface_ok then .error "Failed to get default interface" else
  if ¬ src_ok then .error "No address found on default interface" else
  icmp_ping_model setting env

/-- Concrete ping setting: ICMPv6 ping with two probes. -/
def pingSetting0 : PingSetting :=
  ⟨.v6 lo6, none, none, 64, .Icmp, 2, 1000, 1000⟩

/-- Concrete environment: every probe is answered by a minimal ICMPv6 Echo
Reply after `10 * seq` milliseconds. -/
def pingEnv0 : PingNetEnv :=
  ⟨true, fun _ => .reply [129, 0, 0, 0], fun seq => seq * 10⟩

/-- The stat the concrete run produces. -/
def pingStat0 : PingStat :=
  match icmp_ping_model pingSetting0 pingEnv0 with
  | .ok s => s
  | .error _ => default

/-- Concrete ping setting with `count = 0` (the C8 boundary case). -/
def pingSettingZero : PingSetting :=
  ⟨.v4 lo4, none, none, 64, .Icmp, 0, 1000, 1000⟩

/-- The stat of the `count = 0` run. -/
def pingStatZero : PingStat :=
  match icmp_ping_model pingSettingZero pingEnv0 with
  | .ok s => s
  | .error _ => default

/-! ## Host scanner (src-tauri/src/probe/scan/icmp.rs)

The per-target retry loop (lines 163-207) is embedded as a recursion over the
remaining tries; what the network did for each `seq` is an environment
function.  `sent` is a ghost log of the sequence numbers for which `send_to`
was invoked.  The shuffle (`targets.shuffle` unless `ordered`) and the
completion order of the `buffer_unordered` stream are modelled together by
quantifying over `runs`, any permutation of the targets.  The `done` counter
is sound to model as the completion index + 1: the `fetch_add` and the
`emit` happen in the same synchronous segment of a task poll (no `await`
between lines 209 and 229), and all per-target futures are polled by the
single task draining the stream, so progress events are emitted in counter
order. -/

/-- What the network did for one host-scan try: the send failed, a reply
fulfilled the oneshot channel with an RTT, the channel was dropped
(canceled), or the wait timed out. -/
inductive HostTryOutcome where
  | sendErr (msg : String)
  | reply (rtt : Nat)
  | canceled
  | timeout
deriving DecidableEq, Repr

/-- Whether the outcome is a fulfilled reply. -/
def HostTryOutcome.is_reply : HostTryOutcome → Bool
  | .reply _ => true
  | _ => false

/-- State of the per-target loop: best RTT, last error, and the ghost log of
sent sequence numbers. -/
structure HostTryResult where
  best_rtt : Option Nat
  last_err : Option String
  sent : List Nat
deriving DecidableEq, Repr

/-- The `for seq in 1..=cnt` loop body of host_scan (scan/icmp.rs lines
163-207): insert pending, send, await; a fulfilled reply records the best RTT
and `break`s; send errors, cancellations and timeouts record a message and
continue with the next `seq`. -/
def hostTryGo (outcomes : Nat → HostTryOutcome) (tmo : Nat) :
    Nat → Nat → HostTryResult → HostTryResult
  | 0, _, st => st
  | rem + 1, seq, st =>
    let st1 : HostTryResult := ⟨st.best_rtt, st.last_err, st.sent ++ [seq]⟩
    match outcomes seq with
    | .sendErr m =>
      hostTryGo outcomes tmo rem (seq + 1)
        ⟨st1.best_rtt, some ("send error: " ++ m), st1.sent⟩
    | .reply rtt =>
      let r := rtt % U64_LIMIT
      let nb := match st1.best_rtt with
        | none => r
        | some b => Nat.min b r
      ⟨some nb, st1.last_err, st1.sent⟩
    | .canceled =>
      hostTryGo outcomes tmo rem (seq + 1)
        ⟨st1.best_rtt, some "wait canceled", st1.sent⟩
    | .timeout =>
      hostTryGo outcomes tmo rem (seq + 1)
        ⟨st1.best_rtt, some ("timeout (>" ++ toString tmo ++ "ms)"), st1.sent⟩

/-- The whole per-target loop, tries `1..=cnt`. -/
def host_try_loop (outcomes : Nat → HostTryOutcome) (cnt tmo : Nat) :
    HostTryResult :=
  hostTryGo outcomes tmo cnt 1 ⟨none, none, []⟩

/-- `HostState` from model/scan.rs. -/
inductive HostState where
  | Alive
  | Unreachable
deriving DecidableEq, Repr

/-- `HostScanProgress` from model/scan.rs. -/
structure HostScanProgress where
  ip_addr : IpAddr
  state : HostState
  rtt_ms : Option Nat
  message : Option String
  done : Nat
  total : Nat
deriving DecidableEq, Repr

/-- `HostScanReport` from model/scan.rs (`alive` keeps the RTT per IP). -/
structure HostScanReport where
  run_id : String
  alive : List (IpAddr × Nat)
  unreachable : List IpAddr
  total : Nat
deriving DecidableEq, Repr

/-- One target of the scan together with its per-try network outcomes. -/
structure HostTarget where
  ip : IpAddr
  outcomes : Nat → HostTryOutcome

/-- The progress record a target's task emits when it completes as the
`i`-th (0-based) finisher: Alive with the best RTT, or Unreachable with the
last error (scan/icmp.rs lines 209-230). -/
def host_progress (total cnt tmo i : Nat) (t : HostTarget) :
    HostScanProgress :=
  let r := host_try_loop t.outcomes cnt tmo
  match r.best_rtt with
  | some rtt => ⟨t.ip, .Alive, some rtt, none, i + 1, total⟩
  | none => ⟨t.ip, .Unreachable, none, r.last_err, i + 1, total⟩

/-- The `hostscan:progress` events of a run, in emission order (`runs` is
the completion order of the targets). -/
def host_scan_events (targets : List IpAddr) (runs : List HostTarget)
    (cnt tmo : Nat) : List HostScanProgress :=
  runs.enum.map (fun p => host_progress targets.length cnt tmo p.1 p.2)

/-- The final report: the collection loop (scan/icmp.rs lines 236-263)
pushes each progress into `alive` (with `rtt_ms.unwrap_or(0)`) or
`unreachable`. -/
def host_scan_report (run_id : String) (targets : List IpAddr)
    (runs : List HostTarget) (cnt tmo : Nat) : HostScanReport :=
  let events := host_scan_events targets runs cnt tmo
  let alive := (events.filter (fun p => decide (p.state = .Alive))).map
    (fun p => (p.ip_addr, p.rtt_ms.getD 0))
  let unreachable := (events.filter
    (fun p => decide (p.state = .Unreachable))).map (fun p => p.ip_addr)
  ⟨run_id, alive, unreachable, targets.length⟩

/-- Concrete outcome table for the C6 witness: the second try is answered. -/
def c6_outcomes : Nat → HostTryOutcome :=
  fun j => if j = 2 then .reply 7 else .timeout

/-- Concrete host-scan targets. -/
def c4_targets : List IpAddr := [.v4 [10, 0, 0, 1], .v4 [10, 0, 0, 2]]

/-- Concrete completion order: the second target finishes first (alive), the
first times out. -/
def c4_runs : List HostTarget :=
  [⟨.v4 [10, 0, 0, 2], fun _ => .reply 4⟩,
   ⟨.v4 [10, 0, 0, 1], fun _ => .timeout⟩]

/-! ## Traceroute (src-tauri/src/probe/trace/icmp.rs) -/

/-- `TraceHop` from trace/mod.rs. -/
structure TraceHop where
  hop : Nat
  ip_addr : Option IpAddr
  rtt_ms : Option Nat
  reached : Bool
  note : Option String
deriving DecidableEq, Repr

/-- `is_echo_reply` from trace/icmp.rs: the destination address selects only
the v4/v6 parse path; the reply's source address is never consulted. -/
def is_echo_reply (dst_ip : IpAddr) (icmp_bytes : List Nat) : Bool :=
  match dst_ip with
  | .v4 _ =>
    match Ipv4Packet.from_buf icmp_bytes with
    | some ip =>
      if ip.header.next_level_protocol = 1 then
        match IcmpPacket.from_bytes ip.payload with
        | some icmp => decide (icmp.header.icmp_type = 0)
        | none => false
      else false
    | none => false
  | .v6 _ =>
    match Icmpv6Packet.from_buf icmp_bytes with
    | some icmp6 => decide (icmp6.header.icmpv6_type = 129)
    | none => false

/-- The `Ok((n, from))` arm of the traceroute per-try receive (trace/icmp.rs
lines 114-133): adopt the lower RTT as the hop representative; if the packet
is an echo reply, mark the hop reached — the returned flag is the
`break` of the TTL sweep. -/
def trace_recv_step (dst_ip : IpAddr) (best : TraceHop) (from_ip : IpAddr)
    (buf : List Nat) (elapsed : Nat) : TraceHop × Bool :=
  let rtt := elapsed % U64_LIMIT
  let best1 :=
    if (match best.rtt_ms with
      | none => true
      | some cur => decide (rtt < cur)) then
      ⟨best.hop, some from_ip, some rtt, best.reached, none⟩
    else best
  if is_echo_reply dst_ip buf then
    (⟨best1.hop, best1.ip_addr, best1.rtt_ms, true, best1.note⟩, true)
  else (best1, false)

/-- An ICMPv4 Echo Reply datagram whose IPv4 source field is 9.9.9.9 — not
the traced destination 1.1.1.1. -/
def c5_reply_buf : List Nat :=
  wrap_ipv4 1 [9, 9, 9, 9] [1, 1, 1, 1] (with_type 0 (buildIcmpEchoV4 1 1 []))

/-! ## Port scanner (src-tauri/src/probe/scan/tcp.rs and quic.rs) -/

/-- `PortState` from model/scan.rs. -/
inductive PortState where
  | Open
  | Closed
  | Filtered
deriving DecidableEq, Repr

/-- The `std::io::ErrorKind` values the TCP scan distinguishes; every other
kind falls into `other` (the match's `_` arm). -/
inductive IoErrorKind where
  | TimedOut
  | ConnectionRefused
  | ConnectionReset
  | NotConnected
  | NetworkUnreachable
  | HostUnreachable
  | AddrNotAvailable
  | other (name : String)
deriving DecidableEq, Repr

/-- Result of `connect_timeout`: a stream (with the measured elapsed
milliseconds), or an error with its kind and display message. -/
inductive ConnectOutcome where
  | ok (elapsedMs : Nat)
  | err (kind : IoErrorKind) (msg : String)
deriving DecidableEq, Repr

/-- The TCP connect classification (scan/tcp.rs lines 65-88): port state,
RTT and message for one port probe. -/
def classify_tcp_connect :
    ConnectOutcome → PortState × Option Nat × Option String
  | .ok elapsed => (.Open, some (elapsed % U64_LIMIT), none)
  | .err k m =>
    let st := match k with
      | .TimedOut => PortState.Filtered
      | .ConnectionRefused | .ConnectionReset | .NotConnected =>
        PortState.Closed
      | .NetworkUnreachable | .HostUnreachable | .AddrNotAvailable =>
        PortState.Filtered
      | .other _ => PortState.Closed
    (st, none, some m)

/-- The classification table exactly as spec section 4.5 states it (the
spec-side mapping `classify_tcp_connect` is checked against). -/
def spec_port_state : IoErrorKind → PortState
  | .TimedOut | .NetworkUnreachable | .HostUnreachable
  | .AddrNotAvailable => .Filtered
  | .ConnectionRefused | .ConnectionReset | .NotConnected => .Closed
  | .other _ => .Closed

/-- `TargetPortsPreset` from model/scan.rs. -/
inductive TargetPortsPreset where
  | Common
  | WellKnown
  | Full
  | Top1000
  | Custom
deriving DecidableEq, Repr

/-- Modelled from the spec: `expand_ports` lives in
src-tauri/src/probe/scan/mod.rs, which is not among the provided sources.
Spec section 3 gives `preset ∈ {Common, WellKnown, Full, Top1000, Custom}`
with `user_ports[]`: Custom expands to the user-supplied ports as given; the
named presets are fixed duplicate-free lists the spec does not enumerate,
modelled here as the conventional ranges (well-known 1-1023, full 1-65535,
top-1000 1-1000, common as the well-known range). -/
def expand_ports (preset : TargetPortsPreset) (user_ports : List Nat) :
    List Nat :=
  match preset with
  | .Custom => user_ports
  | .WellKnown => List.range' 1 1023
  | .Full => List.range' 1 65535
  | .Top1000 => List.range' 1 1000
  | .Common => List.range' 1 1023

/-- `PortScanSample` from model/scan.rs. -/
structure PortScanSample where
  ip_addr : IpAddr
  port : Nat
  state : PortState
  rtt_ms : Option Nat
  message : Option String
  service_name : Option String
  done : Nat
  total : Nat
deriving DecidableEq, Repr

/-- One TCP port probe: socket creation may fail before the connect. -/
inductive TcpProbeOutcome where
  | sockErr (msg : String)
  | conn (o : ConnectOutcome)
deriving DecidableEq, Repr

/-- The per-port TCP task (scan/tcp.rs lines 37-104): socket-creation errors
become Filtered samples with a message, otherwise the connect outcome is
classified; `done` is the completion index + 1 (fetch_add and emit share one
synchronous poll segment, as in the host scan). -/
def tcp_port_sample (ip : IpAddr) (total : Nat)
    (connect : Nat → TcpProbeOutcome) (done port : Nat) : PortScanSample :=
  match connect port with
  | .sockErr m =>
    ⟨ip, port, .Filtered, none, some ("tcp socket error: " ++ m), none,
      done, total⟩
  | .conn o =>
    let c := classify_tcp_connect o
    ⟨ip, port, c.1, c.2.1, c.2.2, none, done, total⟩

/-- Stable insertion after existing equal keys — together with the fold
below this models the observable behavior of Rust's stable
`sort_by_key(|s| s.port)`. -/
def insert_by_port (s : PortScanSample) :
    List PortScanSample → List PortScanSample
  | [] => [s]
  | t :: rest =>
    if t.port ≤ s.port then t :: insert_by_port s rest else s :: t :: rest

/-- Insertion sort by port. -/
def sort_by_port (l : List PortScanSample) : List PortScanSample :=
  l.foldl (fun acc s => insert_by_port s acc) []

/-- The TCP collection stage (scan/tcp.rs lines 108-125): keep only Open
samples, attach the service-database name, then sort by port. -/
def tcp_collect (svc : Nat → Option String) (arrived : List PortScanSample) :
    List PortScanSample :=
  sort_by_port ((arrived.filter (fun s => decide (s.state = .Open))).map
    (fun s => ⟨s.ip_addr, s.port, s.state, s.rtt_ms, s.message, svc s.port,
      s.done, s.total⟩))

/-- The QUIC collection stage (scan/quic.rs lines 110-124): same filtering
and service attachment, but no sort — completion order is kept. -/
def quic_collect (svc : Nat → Option String)
    (arrived : List PortScanSample) : List PortScanSample :=
  (arrived.filter (fun s => decide (s.state = .Open))).map
    (fun s => ⟨s.ip_addr, s.port, s.state, s.rtt_ms, s.message, svc s.port,
      s.done, s.total⟩)

/-- The TCP per-port samples in completion order (`arrival` is the order the
`buffer_unordered` stream yields the ports). -/
def tcp_port_scan_samples (ip : IpAddr) (ports arrival : List Nat)
    (connect : Nat → TcpProbeOutcome) : List PortScanSample :=
  arrival.enum.map (fun p => tcp_port_sample ip ports.length connect
    (p.1 + 1) p.2)

/-- The samples of the final TCP `PortScanReport`. -/
def tcp_port_scan_report_samples (ip : IpAddr) (ports arrival : List Nat)
    (connect : Nat → TcpProbeOutcome) (svc : Nat → Option String) :
    List PortScanSample :=
  tcp_collect svc (tcp_port_scan_samples ip ports arrival connect)

/-- One QUIC port probe: endpoint creation may fail; a connect error is an
io TimedOut or anything else (scan/quic.rs lines 72-83 downcast). -/
inductive QuicProbeOutcome where
  | epErr (msg : String)
  | ok (elapsedMs : Nat)
  | err (ioTimedOut : Bool) (msg : String)
deriving DecidableEq, Repr

/-- The QUIC probe classification (scan/quic.rs lines 54-91). -/
def classify_quic_probe :
    QuicProbeOutcome → PortState × Option Nat × Option String
  | .epErr m => (.Filtered, none, some ("quic endpoint error: " ++ m))
  | .ok e => (.Open, some (e % U64_LIMIT), none)
  | .err true m => (.Filtered, none, some m)
  | .err false m => (.Closed, none, some m)

/-- The per-port QUIC task's sample. -/
def quic_port_sample (ip : IpAddr) (total : Nat)
    (probe : Nat → QuicProbeOutcome) (done port : Nat) : PortScanSample :=
  let c := classify_quic_probe (probe port)
  ⟨ip, port, c.1, c.2.1, c.2.2, none, done, total⟩

/-- The samples of the final QUIC `PortScanReport` (no sorting). -/
def quic_port_scan_report_samples (ip : IpAddr) (ports arrival : List Nat)
    (probe : Nat → QuicProbeOutcome) (svc : Nat → Option String) :
    List PortScanSample :=
  quic_collect svc (arrival.enum.map (fun p => quic_port_sample ip
    ports.length probe (p.1 + 1) p.2))

/-! ## Neighbor table (src-tauri/src/net/neigh/os/linux.rs)

The netlink socket I/O (`dump_neigh`) and the `/proc/net/arp` file read are
environment inputs: the decoded `NeighbourMessage` list (or the error), and
the file's lines (or the error).  Everything after those reads is embedded
from the source. -/

/-- A MAC address as its six octets. -/
abbrev Mac := List Nat

/-- `NeighbourAddress` (netlink_packet_route): the arms the code reads. -/
inductive NeighbourAddress where
  | Inet (octets : List Nat)
  | Inet6 (octets : List Nat)
deriving DecidableEq, Repr

/-- `NeighbourAttribute`: the code reads `Destination` and
`LinkLocalAddress` and skips every other attribute. -/
inductive NeighbourAttribute where
  | Destination (a : NeighbourAddress)
  | LinkLocalAddress (bytes : List Nat)
  | OtherAttr
deriving DecidableEq, Repr

/-- `NeighbourMessage`: its attribute list. -/
structure NeighbourMessage where
  attributes : List NeighbourAttribute
deriving DecidableEq, Repr

/-- `neigh_addr_to_ip` from linux.rs lines 145-152. -/
def neigh_addr_to_ip : NeighbourAddress → Option IpAddr
  | .Inet o => some (.v4 o)
  | .Inet6 o => some (.v6 o)

/-- `HashMap::insert` on an association list: replace the existing binding
for the key, or append a new one. -/
def map_insert (m : List (IpAddr × Mac)) (k : IpAddr) (v : Mac) :
    List (IpAddr × Mac) :=
  if m.any (fun p => decide (p.1 = k)) then
    m.map (fun p => if p.1 = k then (k, v) else p)
  else m ++ [(k, v)]

/-- The attribute loop of `neighs_to_map` (linux.rs lines 236-248): each
`Destination` overwrites the candidate IP, each 6-byte `LinkLocalAddress`
overwrites the candidate MAC (shorter ones leave it unchanged). -/
def neigh_fold_attrs : List NeighbourAttribute → Option IpAddr → Option Mac →
    Option IpAddr × Option Mac
  | [], ip, mac => (ip, mac)
  | .Destination a :: rest, _, mac =>
    neigh_fold_attrs rest (neigh_addr_to_ip a) mac
  | .LinkLocalAddress b :: rest, ip, mac =>
    neigh_fold_attrs rest ip (if b.length = 6 then some b else mac)
  | .OtherAttr :: rest, ip, mac => neigh_fold_attrs rest ip mac

/-- `neighs_to_map` from linux.rs lines 229-256: always `Ok`; a record is
inserted only when it yielded both an IP and a 6-byte MAC, all others are
skipped. -/
def neighs_to_map (neighs : List NeighbourMessage) :
    Except String (List (IpAddr × Mac)) :=
  .ok (neighs.foldl (fun m n =>
    match neigh_fold_attrs n.attributes none none with
    | (some ip, some mac6) => map_insert m ip mac6
    | _ => m) [])

/-- A hexadecimal digit's value. -/
def hexDigit (c : Char) : Option Nat :=
  if c.isDigit then some (c.toNat - 48)
  else if 'a' ≤ c ∧ c ≤ 'f' then some (c.toNat - 87)
  else if 'A' ≤ c ∧ c ≤ 'F' then some (c.toNat - 55)
  else none

/-- Models `u8::from_str_radix(s, 16)` on the at-most-2-character pieces
`parse_mac_str` feeds it: one or two hex digits (the empty string fails). -/
def parse_hex_u8 (s : String) : Option Nat :=
  match s.toList with
  | [c] => hexDigit c
  | [c1, c2] => do
    let h1 ← hexDigit c1
    let h2 ← hexDigit c2
    pure (h1 * 16 + h2)
  | _ => none

/-- `parse_mac_str` from linux.rs lines 154-169: normalize dashes to colons,
require six pieces of at most two characters, parse each as hex. -/
def parse_mac_str (s : String) : Option Mac :=
  let cleaned := s.replace "-" ":"
  let parts := cleaned.splitOn ":"
  if parts.length = 6 then
    parts.mapM (fun p : String =>
      if 2 < p.length then none else parse_hex_u8 p)
  else none

/-- Models `std::net::Ipv4Addr::from_str`: four dot-separated decimal octets
0-255, each 1-3 digits (std's leading-zero rejection is omitted; it does not
affect the claims). -/
def parse_ipv4_str (s : String) : Option IpAddr :=
  let parts := s.splitOn "."
  if parts.length = 4 then
    (parts.mapM (fun p : String =>
      match p.toNat? with
      | some v => if 1 ≤ p.length ∧ p.length ≤ 3 ∧ v ≤ 255 then some v
        else none
      | none => none)).map (fun os => IpAddr.v4 os)
  else none

/-- The column handling of one `/proc/net/arp` line (linux.rs lines
187-204): need at least six columns; only complete entries (flags `0x2`,
case-insensitively) with a parseable IPv4 address and MAC are inserted. -/
def proc_cols_insert (m : List (IpAddr × Mac)) (cols : List String) :
    List (IpAddr × Mac) :=
  if cols.length < 6 then m
  else if (cols.getD 2 "").toLower ≠ "0x2" then m
  else
    match parse_ipv4_str (cols.getD 0 ""), parse_mac_str (cols.getD 3 "") with
    | some ip, some mac6 => map_insert m ip mac6
    | _, _ => m

/-- One `/proc/net/arp` line (linux.rs lines 182-205): split on whitespace
(runs of spaces yield no empty columns), then insert per the column rules. -/
def read_proc_line (m : List (IpAddr × Mac)) (line : String) :
    List (IpAddr × Mac) :=
  proc_cols_insert m ((line.splitOn " ").filter (fun c => c ≠ ""))

/-- `read_proc_net_arp` from linux.rs lines 172-207: an I/O error while
opening or reading the file is the only `Err` path; the header line is
skipped and each remaining line is parsed leniently. -/
def read_proc_net_arp (res : Except String (List String)) :
    Except String (List (IpAddr × Mac)) :=
  match res with
  | .error e => .error e
  | .ok lines => .ok ((lines.drop 1).foldl read_proc_line [])

/-- The fallback tail of `get_neighbor_table` (linux.rs lines 220-226). -/
def get_neighbor_fallback (proc : Except String (List String)) :
    Except String (List (IpAddr × Mac)) :=
  match read_proc_net_arp proc with
  | .ok m => if m ≠ [] then .ok m else .ok []
  | .error _ => .ok []

/-- The netlink arm of `get_neighbor_table`: a nonempty decoded map is
returned, otherwise fall back. -/
def get_neighbor_from_netlink (r : Except String (List (IpAddr × Mac)))
    (proc : Except String (List String)) :
    Except String (List (IpAddr × Mac)) :=
  match r with
  | .ok m => if m ≠ [] then .ok m else get_neighbor_fallback proc
  | .error _ => get_neighbor_fallback proc

/-- `get_neighbor_table` from linux.rs lines 211-227: netlink first, then
the `/proc/net/arp` fallback, then the empty map — never `Err`. -/
def get_neighbor_table (netlink : Except String (List NeighbourMessage))
    (proc : Except String (List String)) :
    Except String (List (IpAddr × Mac)) :=
  match netlink with
  | .ok neighs => get_neighbor_from_netlink (neighs_to_map neighs) proc
  | .error _ => get_neighbor_fallback proc

/-- The RTTs of the Done samples of a run — the list the spec's summary
rules (min, floor mean, max) quantify over. -/
def done_rtts (samples : List PingSample) : List Nat :=
  samples.filterMap
    (fun s => if s.probe_status.kind = .Done then s.rtt_ms else none)

/-- `pad4` always yields a list of exactly four bytes. -/
theorem pad4_eq (l : List Nat) : ∃ a b c d, pad4 l = [a, b, c, d] := by
  rcases l with _ | ⟨x, _ | ⟨y, _ | ⟨z, _ | ⟨w, t⟩⟩⟩⟩ <;>
    exact ⟨_, _, _, _, rfl⟩

/-- On any buffer with the 4 ICMPv6 header bytes, `parse_icmp_echo_v6`
returns some reply; identifier/sequence are nonzero only for genuine
type-129 messages, and non-129 types yield the zeroed fallback. -/
theorem parse_icmp_echo_v6_cons (t c k1 k2 : Nat) (rest : List Nat) :
    ∃ r, parse_icmp_echo_v6 (t :: c :: k1 :: k2 :: rest) = some r ∧
      (r.identifier ≠ 0 ∨ r.sequence_number ≠ 0 →
        t = 129 ∧ r.header.icmpv6_type = 129) ∧
      (t ≠ 129 → r.identifier = 0 ∧ r.sequence_number = 0) := by
  by_cases ht : t = 129
  · subst ht
    rcases rest with _ | ⟨i1, _ | ⟨i2, _ | ⟨q1, _ | ⟨q2, rest'⟩⟩⟩⟩ <;>
      simp [parse_icmp_echo_v6, Icmpv6Packet.from_buf,
        Icmpv6EchoReplyPacket.from_buf]
  · simp [parse_icmp_echo_v6, Icmpv6Packet.from_buf, ht]

/-! ## Theorems for C1 (ICMPv6 echo-reply parser type filtering) -/

/-- C1 counterexample: the 4-byte buffer `[1,0,0,0]` parses as an ICMPv6
message of type 1 (Destination Unreachable), yet `parse_icmp_echo_v6` returns
`some` (a synthesized reply with identifier 0, sequence 0) instead of the
`none` the claim requires for non-129 types. -/
theorem C1_counterexample :
    (Icmpv6Packet.from_buf [1, 0, 0, 0]).map
        (fun p => p.header.icmpv6_type) = some 1 ∧
    parse_icmp_echo_v6 [1, 0, 0, 0] = some ⟨⟨1, 0, 0⟩, 0, 0, []⟩ := by
  decide

/-- C1 amended: `parse_icmp_echo_v6` returns `some` exactly when the buffer
parses as an ICMPv6 message (at least the 4 header bytes); for every parseable
message whose type is not 129 it returns a synthesized packet with identifier
0 and sequence number 0 (not `none`); a reply carrying a nonzero identifier
can only come from a genuine type-129 message. -/
theorem C1_parse_v6_amended (buf : List Nat) :
    ((parse_icmp_echo_v6 buf).isSome ↔ 4 ≤ buf.length) ∧
    (∀ p, Icmpv6Packet.from_buf buf = some p → p.header.icmpv6_type ≠ 129 →
      (parse_icmp_echo_v6 buf).map
        (fun r => (r.identifier, r.sequence_number)) = some (0, 0)) ∧
    (∀ r, parse_icmp_echo_v6 buf = some r → r.identifier ≠ 0 →
      r.header.icmpv6_type = 129) := by
  rcases buf with _ | ⟨t, _ | ⟨c, _ | ⟨k1, _ | ⟨k2, rest⟩⟩⟩⟩
  case nil | cons.nil | cons.cons.nil | cons.cons.cons.nil =>
    simp [parse_icmp_echo_v6, Icmpv6Packet.from_buf]
  obtain ⟨r, hr, hnz, hz⟩ := parse_icmp_echo_v6_cons t c k1 k2 rest
  refine ⟨?_, ?_, ?_⟩
  · rw [hr]; simp
  · intro p hp hty
    have htp : p.header.icmpv6_type = t := by
      cases hp.symm; rfl
    rw [hr]
    obtain ⟨h1, h2⟩ := hz (by rw [htp] at hty; exact hty)
    simp [h1, h2]
  · intro r' hr' hid
    rw [hr] at hr'
    cases hr'
    exact (hnz (Or.inl hid)).2

/-- C1 amended, witnessed at concrete buffers: the Destination-Unreachable
buffer yields the zeroed reply, and a genuine type-129 buffer with identifier
7 is reported as type 129. -/
theorem C1_parse_v6_amended_witness :
    (parse_icmp_echo_v6 [1, 0, 0, 0]).map
        (fun r => (r.identifier, r.sequence_number)) = some (0, 0) ∧
    (⟨⟨129, 0, 0⟩, 7, 9, []⟩ : Icmpv6EchoReplyPacket).header.icmpv6_type =
      129 :=
  ⟨(C1_parse_v6_amended [1, 0, 0, 0]).2.1 ⟨⟨1, 0, 0⟩, []⟩ (by decide)
      (by decide),
    (C1_parse_v6_amended [129, 0, 0, 0, 0, 7, 0, 9]).2.2
      ⟨⟨129, 0, 0⟩, 7, 9, []⟩ (by decide) (by decide)⟩

/-! ## Theorems for C2 (codec round-trip) -/

/-- C2 counterexample: building an echo with id 1, seq 1 and parsing it back
does not yield `{id, seq}`.  The v6 parse returns the zeroed fallback (the
builder emits type 128, Echo Request, and only type 129 carries id/seq), and
the v4 parse of the IPv4-wrapped message returns `none` (type 8 is not the
required reply type 0). -/
theorem C2_counterexample :
    ((build_icmp_echo_bytes (.v6 lo6) (.v6 lo6) 1 1 []).bind
        parse_icmp_echo_v6).map
        (fun r => (r.identifier, r.sequence_number)) = some (0, 0) ∧
    (0, 0) ≠ ((1 : Nat), (1 : Nat)) ∧
    (build_icmp_echo_bytes (.v4 lo4) (.v4 lo4) 1 1 []).map
        (fun bytes => parse_icmp_echo_v4 (wrap_ipv4 1 lo4 lo4 bytes)) =
      some none := by
  decide

/-- C2 amended: the request/reply types do not round-trip directly — parsing
the built bytes yields the zeroed fallback for v6 and `none` for v4; after
rewriting the type byte to the Echo Reply type (129 for v6, 0 for v4) the
parsers recover `id mod 2^16` and `seq mod 2^16`. -/
theorem C2_codec_amended (s d : List Nat) (id seq : Nat)
    (payload : List Nat) :
    (∀ bytes, build_icmp_echo_bytes (.v6 s) (.v6 d) id seq payload =
        some bytes →
      (parse_icmp_echo_v6 bytes).map
          (fun r => (r.identifier, r.sequence_number)) = some (0, 0) ∧
      (parse_icmp_echo_v6 (with_type 129 bytes)).map
          (fun r => (r.identifier, r.sequence_number)) =
        some (id % 65536, seq % 65536)) ∧
    (∀ bytes, build_icmp_echo_bytes (.v4 s) (.v4 d) id seq payload =
        some bytes →
      parse_icmp_echo_v4 (wrap_ipv4 1 s d bytes) = none ∧
      (parse_icmp_echo_v4 (wrap_ipv4 1 s d (with_type 0 bytes))).map
          (fun r => (r.identifier, r.sequence_number)) =
        some (id % 65536, seq % 65536)) := by
  obtain ⟨a0, a1, a2, a3, hs⟩ := pad4_eq s
  obtain ⟨b0, b1, b2, b3, hd⟩ := pad4_eq d
  constructor
  · intro bytes hb
    cases hb.symm
    constructor
    · simp [buildIcmpv6Echo, parse_icmp_echo_v6, Icmpv6Packet.from_buf]
    · simp [buildIcmpv6Echo, with_type, parse_icmp_echo_v6,
        Icmpv6Packet.from_buf, Icmpv6EchoReplyPacket.from_buf, hi16, lo16]
      omega
  · intro bytes hb
    cases hb.symm
    constructor
    · simp [buildIcmpEchoV4, wrap_ipv4, hs, hd, parse_icmp_echo_v4,
        Ipv4Packet.from_buf, IcmpPacket.from_bytes, EchoReplyPacket.try_from]
    · simp [buildIcmpEchoV4, with_type, wrap_ipv4, hs, hd,
        parse_icmp_echo_v4, Ipv4Packet.from_buf, IcmpPacket.from_bytes,
        EchoReplyPacket.try_from, hi16, lo16]
      omega

/-- C2 amended, witnessed at id 7, seq 3 on loopback addresses with payload
`[1, 2]`: type-corrected parses recover (7, 3), raw parses do not. -/
theorem C2_codec_amended_witness :
    (parse_icmp_echo_v6
        (with_type 129 (buildIcmpv6Echo lo6 lo6 7 3 [1, 2]))).map
        (fun r => (r.identifier, r.sequence_number)) = some (7, 3) ∧
    (parse_icmp_echo_v4
        (wrap_ipv4 1 lo4 lo4 (with_type 0 (buildIcmpEchoV4 7 3 [1, 2])))).map
        (fun r => (r.identifier, r.sequence_number)) = some (7, 3) :=
  ⟨((C2_codec_amended lo6 lo6 7 3 [1, 2]).1 _ rfl).2,
    ((C2_codec_amended lo4 lo4 7 3 [1, 2]).2 _ rfl).2⟩

/-! ## Theorems for C3 (ping summary statistics) -/

/-- The running-minimum fold of `summarize_rtts`: the result is the seed or a
list element, is at most the seed, and is a lower bound of the list. -/
theorem foldl_min_spec (l : List Nat) : ∀ init : Nat,
    (l.foldl (fun m v => if v < m then v else m) init = init ∨
      l.foldl (fun m v => if v < m then v else m) init ∈ l) ∧
    l.foldl (fun m v => if v < m then v else m) init ≤ init ∧
    ∀ x ∈ l, l.foldl (fun m v => if v < m then v else m) init ≤ x := by
  induction l with
  | nil => intro init; simp
  | cons a t ih =>
    intro init
    simp only [List.foldl_cons]
    obtain ⟨h1, h2, h3⟩ := ih (if a < init then a else init)
    refine ⟨?_, ?_, ?_⟩
    · rcases h1 with h | h
      · rw [h]; split
        · exact Or.inr (List.mem_cons_self a t)
        · exact Or.inl rfl
      · exact Or.inr (List.mem_cons_of_mem a h)
    · refine le_trans h2 ?_
      split <;> omega
    · intro x hx
      rcases List.mem_cons.mp hx with rfl | hx
      · refine le_trans h2 ?_
        split <;> omega
      · exact h3 x hx

/-- The running-maximum fold of `summarize_rtts`. -/
theorem foldl_max_spec (l : List Nat) : ∀ init : Nat,
    (l.foldl (fun m v => if m < v then v else m) init = init ∨
      l.foldl (fun m v => if m < v then v else m) init ∈ l) ∧
    init ≤ l.foldl (fun m v => if m < v then v else m) init ∧
    ∀ x ∈ l, x ≤ l.foldl (fun m v => if m < v then v else m) init := by
  induction l with
  | nil => intro init; simp
  | cons a t ih =>
    intro init
    simp only [List.foldl_cons]
    obtain ⟨h1, h2, h3⟩ := ih (if init < a then a else init)
    refine ⟨?_, ?_, ?_⟩
    · rcases h1 with h | h
      · rw [h]; split
        · exact Or.inr (List.mem_cons_self a t)
        · exact Or.inl rfl
      · exact Or.inr (List.mem_cons_of_mem a h)
    · refine le_trans ?_ h2
      split <;> omega
    · intro x hx
      rcases List.mem_cons.mp hx with rfl | hx
      · refine le_trans ?_ h2
        split <;> omega
      · exact h3 x hx

/-- On a nonempty list whose members do not exceed the seed, the minimum fold
lands on a member that bounds the whole list from below. -/
theorem foldl_min_min (l : List Nat) (init : Nat) (hne : l ≠ [])
    (hle : ∀ x ∈ l, x ≤ init) :
    l.foldl (fun m v => if v < m then v else m) init ∈ l ∧
    ∀ x ∈ l, l.foldl (fun m v => if v < m then v else m) init ≤ x := by
  obtain ⟨h1, _h2, h3⟩ := foldl_min_spec l init
  refine ⟨?_, h3⟩
  rcases h1 with h | h
  · obtain ⟨x0, hx0⟩ := List.exists_mem_of_ne_nil l hne
    have hb := h3 x0 hx0
    have hu := hle x0 hx0
    have : l.foldl (fun m v => if v < m then v else m) init = x0 := by omega
    rw [this]; exact hx0
  · exact h

/-- On a nonempty list the maximum fold from 0 lands on a member that bounds
the whole list from above. -/
theorem foldl_max_max (l : List Nat) (hne : l ≠ []) :
    l.foldl (fun m v => if m < v then v else m) 0 ∈ l ∧
    ∀ x ∈ l, x ≤ l.foldl (fun m v => if m < v then v else m) 0 := by
  obtain ⟨h1, _h2, h3⟩ := foldl_max_spec l 0
  refine ⟨?_, h3⟩
  rcases h1 with h | h
  · obtain ⟨x0, hx0⟩ := List.exists_mem_of_ne_nil l hne
    have hb := h3 x0 hx0
    have : l.foldl (fun m v => if m < v then v else m) 0 = x0 := by omega
    rw [this]; exact hx0
  · exact h

/-- The wrapping u128 sum fold agrees with the true sum modulo `2^128`. -/
theorem foldl_modsum (l : List Nat) : ∀ init : Nat, init < U128_LIMIT →
    l.foldl (fun s v => (s + v) % U128_LIMIT) init =
      (init + l.sum) % U128_LIMIT := by
  induction l with
  | nil =>
    intro init h
    simp [Nat.mod_eq_of_lt h]
  | cons a t ih =>
    intro init _h
    simp only [List.foldl_cons, List.sum_cons]
    rw [ih _ (Nat.mod_lt _ (by norm_num [U128_LIMIT]))]
    rw [Nat.mod_add_mod, Nat.add_assoc]

/-- Done status and a present RTT coincide on every generated sample. -/
theorem mk_sample_done_iff (setting : PingSetting) (env : PingNetEnv)
    (seq : Nat) :
    ((mk_ping_sample setting env seq).probe_status.kind = .Done) ↔
      (mk_ping_sample setting env seq).rtt_ms.isSome = true := by
  unfold mk_ping_sample
  cases env.outcome seq <;>
    simp [ProbeStatus.new, ProbeStatus.with_error_message,
      ProbeStatus.with_timeout_message]
  split <;> simp

/-- The RTT a generated sample exposes when Done is exactly the entry the
loop pushes onto `rtts_ok`. -/
theorem mk_sample_rtt_ok (setting : PingSetting) (env : PingNetEnv)
    (seq : Nat) :
    (if (mk_ping_sample setting env seq).probe_status.kind = .Done then
        (mk_ping_sample setting env seq).rtt_ms
      else none) = ping_rtt_ok setting env seq := by
  unfold mk_ping_sample ping_rtt_ok
  cases env.outcome seq <;>
    simp [ProbeStatus.new, ProbeStatus.with_error_message,
      ProbeStatus.with_timeout_message]
  split <;> simp

/-- Counting Done samples equals counting the Done RTT entries whenever Done
samples carry an RTT. -/
theorem done_rtts_length (l : List PingSample)
    (h : ∀ s ∈ l, (s.probe_status.kind = .Done) ↔ s.rtt_ms.isSome = true) :
    (done_rtts l).length =
      (l.filter (fun s => decide (s.probe_status.kind = .Done))).length := by
  induction l with
  | nil => simp [done_rtts]
  | cons a t ih =>
    have ht := ih (fun s hs => h s (List.mem_cons_of_mem a hs))
    by_cases ha : a.probe_status.kind = .Done
    · have : a.rtt_ms.isSome = true := (h a (List.mem_cons_self a t)).mp ha
      obtain ⟨v, hv⟩ := Option.isSome_iff_exists.mp this
      simp [done_rtts, ha, hv, List.filterMap_cons] at ht ⊢
      omega
    · simp [done_rtts, ha, List.filterMap_cons] at ht ⊢
      exact ht

/-- Every entry of the run's `rtts_ok` list is a u64 value. -/
theorem rtts_ok_lt (setting : PingSetting) (env : PingNetEnv) (n : Nat) :
    ∀ x ∈ (List.range' 1 n).filterMap (ping_rtt_ok setting env),
      x < U64_LIMIT := by
  intro x hx
  rw [List.mem_filterMap] at hx
  obtain ⟨q, _, hq⟩ := hx
  unfold ping_rtt_ok at hq
  rcases henv : env.outcome q with m | _ | m | buf <;> rw [henv] at hq <;>
    simp at hq
  obtain ⟨-, hx⟩ := hq
  rw [← hx]
  exact Nat.mod_lt _ (by norm_num [U64_LIMIT])

/-- C3: for every completed ICMP ping run, `transmitted_count` equals
`setting.count`, `received_count` counts the Done samples, and when any
sample succeeded the summary min/avg/max are the minimum, floor mean and
maximum of the Done RTTs (so min ≤ avg ≤ max), all three being `none` when
no sample succeeded. -/
theorem C3_ping_summary (setting : PingSetting) (env : PingNetEnv)
    (stat : PingStat) (hcnt : setting.count < 2 ^ 32)
    (hstat : icmp_ping_model setting env = .ok stat) :
    stat.transmitted_count = setting.count ∧
    stat.received_count =
      (stat.samples.filter
        (fun s => decide (s.probe_status.kind = .Done))).length ∧
    (stat.received_count = 0 →
      stat.min = none ∧ stat.avg = none ∧ stat.max = none) ∧
    (0 < stat.received_count →
      ∃ a b c, stat.min = some a ∧ stat.avg = some b ∧ stat.max = some c ∧
        a ∈ done_rtts stat.samples ∧ (∀ x ∈ done_rtts stat.samples, a ≤ x) ∧
        c ∈ done_rtts stat.samples ∧ (∀ x ∈ done_rtts stat.samples, x ≤ c) ∧
        b = (done_rtts stat.samples).sum / (done_rtts stat.samples).length ∧
        a ≤ b ∧ b ≤ c) := by
  unfold icmp_ping_model at hstat
  split at hstat
  · exact absurd hstat (by simp)
  simp only [Except.ok.injEq] at hstat
  subst hstat
  have hiff : ∀ s ∈ (List.range' 1 setting.count).map
      (mk_ping_sample setting env),
      (s.probe_status.kind = .Done) ↔ s.rtt_ms.isSome = true := by
    intro s hs
    obtain ⟨q, _, rfl⟩ := List.mem_map.mp hs
    exact mk_sample_done_iff setting env q
  have hfeq : done_rtts ((List.range' 1 setting.count).map
      (mk_ping_sample setting env)) =
      (List.range' 1 setting.count).filterMap (ping_rtt_ok setting env) := by
    unfold done_rtts
    rw [List.filterMap_map]
    congr 1
    funext q
    simp only [Function.comp]
    exact mk_sample_rtt_ok setting env q
  have hfilter : ((List.range' 1 setting.count).map
      (mk_ping_sample setting env)).filter
        (fun s => s.rtt_ms.isSome && decide (s.probe_status.kind = .Done)) =
      ((List.range' 1 setting.count).map (mk_ping_sample setting env)).filter
        (fun s => decide (s.probe_status.kind = .Done)) := by
    apply List.filter_congr
    intro s hs
    by_cases hd : s.probe_status.kind = .Done
    · have hsome := (hiff s hs).mp hd
      simp [hd, hsome]
    · simp [hd]
  have hrecvlen : (((List.range' 1 setting.count).map
      (mk_ping_sample setting env)).filter
        (fun s => decide (s.probe_status.kind = .Done))).length =
      ((List.range' 1 setting.count).filterMap
        (ping_rtt_ok setting env)).length := by
    rw [← hfeq]
    exact (done_rtts_length _ hiff).symm
  have hlt : ∀ x ∈ (List.range' 1 setting.count).filterMap
      (ping_rtt_ok setting env), x < U64_LIMIT :=
    rtts_ok_lt setting env setting.count
  refine ⟨?_, ?_, ?_, ?_⟩
  · simp
  · simp only [hfilter]
  · intro h0
    simp only [hfilter, hrecvlen] at h0
    have hnil := List.length_eq_zero.mp h0
    simp [hnil, summarize_rtts]
  · intro hpos
    simp only [hfilter, hrecvlen] at hpos
    have hne : (List.range' 1 setting.count).filterMap
        (ping_rtt_ok setting env) ≠ [] := by
      intro h
      rw [h] at hpos
      exact absurd hpos (by simp)
    set rtts := (List.range' 1 setting.count).filterMap
      (ping_rtt_ok setting env) with hrtts
    have hle : ∀ x ∈ rtts, x ≤ U64_LIMIT - 1 := by
      intro x hx
      have := hlt x hx
      omega
    obtain ⟨hminmem, hminle⟩ := foldl_min_min rtts (U64_LIMIT - 1) hne hle
    obtain ⟨hmaxmem, hmaxge⟩ := foldl_max_max rtts hne
    have hlenpos : 0 < rtts.length := List.length_pos.mpr hne
    have hlenle : rtts.length ≤ setting.count := by
      calc rtts.length ≤ (List.range' 1 setting.count).length :=
            List.length_filterMap_le _ _
        _ = setting.count := List.length_range' _ _ _
    have hsumle : rtts.sum ≤ rtts.length * (U64_LIMIT - 1) := by
      have := List.sum_le_card_nsmul rtts (U64_LIMIT - 1) hle
      simpa [smul_eq_mul] using this
    have hsumlt : rtts.sum < U128_LIMIT := by
      have h1 : rtts.length * (U64_LIMIT - 1) < 2 ^ 32 * U64_LIMIT := by
        apply Nat.mul_lt_mul_of_le_of_lt (by omega) (by norm_num [U64_LIMIT])
        exact Nat.pos_of_ne_zero (by norm_num)
      have h2 : 2 ^ 32 * U64_LIMIT ≤ U128_LIMIT := by
        norm_num [U64_LIMIT, U128_LIMIT]
      omega
    have hsumfold : rtts.foldl (fun s v => (s + v) % U128_LIMIT) 0 =
        rtts.sum := by
      rw [foldl_modsum rtts 0 (by norm_num [U128_LIMIT])]
      rw [Nat.zero_add]
      exact Nat.mod_eq_of_lt hsumlt
    have hmaxlt : rtts.foldl (fun m v => if m < v then v else m) 0 <
        U64_LIMIT := hlt _ hmaxmem
    have havgle : rtts.sum / rtts.length ≤
        rtts.foldl (fun m v => if m < v then v else m) 0 := by
      have hbound : rtts.sum ≤ rtts.length *
          rtts.foldl (fun m v => if m < v then v else m) 0 := by
        have := List.sum_le_card_nsmul rtts _ hmaxge
        simpa [smul_eq_mul] using this
      calc rtts.sum / rtts.length ≤ (rtts.length *
            rtts.foldl (fun m v => if m < v then v else m) 0) / rtts.length :=
            Nat.div_le_div_right hbound
        _ = rtts.foldl (fun m v => if m < v then v else m) 0 :=
            Nat.mul_div_cancel_left _ hlenpos
    have havgmod : rtts.sum / rtts.length % U64_LIMIT =
        rtts.sum / rtts.length :=
      Nat.mod_eq_of_lt (by omega)
    have hminavg : rtts.foldl (fun m v => if v < m then v else m)
        (U64_LIMIT - 1) ≤ rtts.sum / rtts.length := by
      rw [Nat.le_div_iff_mul_le hlenpos]
      have := List.card_nsmul_le_sum rtts _ hminle
      simpa [smul_eq_mul, Nat.mul_comm] using this
    have hEmpty : rtts.isEmpty = false := by
      rcases hrc : rtts with _ | ⟨r0, rs⟩
      · exact absurd hrc hne
      · rfl
    have hsum3 : summarize_rtts rtts =
        (some (rtts.foldl (fun m v => if v < m then v else m)
          (U64_LIMIT - 1)),
         some (rtts.sum / rtts.length),
         some (rtts.foldl (fun m v => if m < v then v else m) 0)) := by
      unfold summarize_rtts
      rw [hEmpty]
      simp only [Bool.false_eq_true, if_false]
      rw [hsumfold, havgmod]
    refine ⟨rtts.foldl (fun m v => if v < m then v else m) (U64_LIMIT - 1),
      rtts.sum / rtts.length,
      rtts.foldl (fun m v => if m < v then v else m) 0,
      ?_, ?_, ?_, ?_, ?_, ?_, ?_, ?_, ?_, ?_⟩
    · show (summarize_rtts rtts).1 = _
      rw [hsum3]
    · show (summarize_rtts rtts).2.1 = _
      rw [hsum3]
    · show (summarize_rtts rtts).2.2 = _
      rw [hsum3]
    · show _ ∈ done_rtts ((List.range' 1 setting.count).map
        (mk_ping_sample setting env))
      rw [hfeq]
      exact hminmem
    · show ∀ x ∈ done_rtts ((List.range' 1 setting.count).map
        (mk_ping_sample setting env)), _ ≤ x
      rw [hfeq]
      exact hminle
    · show _ ∈ done_rtts ((List.range' 1 setting.count).map
        (mk_ping_sample setting env))
      rw [hfeq]
      exact hmaxmem
    · show ∀ x ∈ done_rtts ((List.range' 1 setting.count).map
        (mk_ping_sample setting env)), x ≤ _
      rw [hfeq]
      exact hmaxge
    · show rtts.sum / rtts.length =
        (done_rtts ((List.range' 1 setting.count).map
          (mk_ping_sample setting env))).sum /
        (done_rtts ((List.range' 1 setting.count).map
          (mk_ping_sample setting env))).length
      rw [hfeq]
    · exact hminavg
    · exact havgle

/-- C3 witnessed on a concrete two-probe v6 run in which both replies parse:
the full summary contract holds for the computed stat. -/
theorem C3_ping_summary_witness :
    pingStat0.transmitted_count = pingSetting0.count ∧
    pingStat0.received_count =
      (pingStat0.samples.filter
        (fun s => decide (s.probe_status.kind = .Done))).length ∧
    (pingStat0.received_count = 0 →
      pingStat0.min = none ∧ pingStat0.avg = none ∧ pingStat0.max = none) ∧
    (0 < pingStat0.received_count →
      ∃ a b c, pingStat0.min = some a ∧ pingStat0.avg = some b ∧
        pingStat0.max = some c ∧
        a ∈ done_rtts pingStat0.samples ∧
        (∀ x ∈ done_rtts pingStat0.samples, a ≤ x) ∧
        c ∈ done_rtts pingStat0.samples ∧
        (∀ x ∈ done_rtts pingStat0.samples, x ≤ c) ∧
        b = (done_rtts pingStat0.samples).sum /
          (done_rtts pingStat0.samples).length ∧
        a ≤ b ∧ b ≤ c) :=
  C3_ping_summary pingSetting0 pingEnv0 pingStat0 (by decide) rfl

/-! ## Theorems for C8 (ping setting validation) -/

/-- C8 counterexample: a `count = 0` ICMP ping reaches the engine and comes
back `Ok` with an empty, successful run (no samples, everything zero or
`none`) — it is not rejected with any error. -/
theorem C8_counterexample :
    ping_command_icmp true true pingSettingZero pingEnv0 =
      .ok pingStatZero ∧
    pingSettingZero.count = 0 ∧
    pingStatZero.samples = [] ∧
    pingStatZero.transmitted_count = 0 ∧
    pingStatZero.received_count = 0 ∧
    pingStatZero.min = none ∧ pingStatZero.avg = none ∧
    pingStatZero.max = none := by
  refine ⟨rfl, rfl, ?_, ?_, ?_, ?_, ?_, ?_⟩ <;> rfl

/-- C8 amended: neither the ping command nor the ICMP engine validates the
setting; whenever the default-interface lookup and the socket creation
succeed, a `count = 0` (and any `timeout_ms`, including 0) setting yields
`Ok` with an empty run — transmitted 0, received 0, summary all `none` —
instead of an InvalidArgument error. -/
theorem C8_ping_no_validation (setting : PingSetting) (env : PingNetEnv)
    (hcount : setting.count = 0) (hsock : env.socket_ok = true) :
    ∃ stat, ping_command_icmp true true setting env = .ok stat ∧
      stat.samples = [] ∧ stat.transmitted_count = 0 ∧
      stat.received_count = 0 ∧
      stat.min = none ∧ stat.avg = none ∧ stat.max = none := by
  unfold ping_command_icmp icmp_ping_model
  rw [hsock, hcount]
  simp [summarize_rtts]

/-- C8 amended, witnessed at the concrete `count = 0` setting. -/
theorem C8_ping_no_validation_witness :
    ∃ stat, ping_command_icmp true true pingSettingZero pingEnv0 =
        .ok stat ∧
      stat.samples = [] ∧ stat.transmitted_count = 0 ∧
      stat.received_count = 0 ∧
      stat.min = none ∧ stat.avg = none ∧ stat.max = none :=
  C8_ping_no_validation pingSettingZero pingEnv0 rfl rfl

/-! ## Theorems for C6 (host-scan retries after a success) -/

/-- C6 counterexample: with `count = 2` and a reply arriving on the first
try, only sequence 1 is ever sent — the success `break`s out of the send
loop, so sequence 2 is not sent. -/
theorem C6_counterexample :
    (1 : Nat) < 2 ∧
    (host_try_loop (fun _ => .reply 5) 2 1000).sent = [1] ∧
    (host_try_loop (fun _ => .reply 5) 2 1000).sent ≠ [1, 2] := by
  decide

/-- Running the per-target loop from `seq` with the first reply at try `s`
sends exactly tries `seq..=s` and records that reply's RTT as the best. -/
theorem hostTryGo_first_success (outcomes : Nat → HostTryOutcome)
    (tmo : Nat) : ∀ rem seq st s r, seq ≤ s → s < seq + rem →
    outcomes s = .reply r →
    (∀ j, seq ≤ j → j < s → (outcomes j).is_reply = false) →
    (hostTryGo outcomes tmo rem seq st).sent =
      st.sent ++ List.range' seq (s + 1 - seq) ∧
    (hostTryGo outcomes tmo rem seq st).best_rtt =
      some (match st.best_rtt with
        | none => r % U64_LIMIT
        | some b => Nat.min b (r % U64_LIMIT)) := by
  intro rem
  induction rem with
  | zero =>
    intro seq st s r h1 h2 _ _
    omega
  | succ n ih =>
    intro seq st s r h1 h2 hr hb
    by_cases hseq : s = seq
    · subst hseq
      unfold hostTryGo
      rw [hr]
      constructor
      · have : s + 1 - s = 1 := by omega
        rw [this]
        rfl
      · rfl
    · have hns : seq < s := lt_of_le_of_ne h1 (Ne.symm hseq)
      have hjr := hb seq (le_refl _) hns
      have hstep : ∀ st' : HostTryResult,
          st'.best_rtt = st.best_rtt → st'.sent = st.sent ++ [seq] →
          (hostTryGo outcomes tmo n (seq + 1) st').sent =
            st.sent ++ List.range' seq (s + 1 - seq) ∧
          (hostTryGo outcomes tmo n (seq + 1) st').best_rtt =
            some (match st.best_rtt with
              | none => r % U64_LIMIT
              | some b => Nat.min b (r % U64_LIMIT)) := by
        intro st' hbest hsent
        obtain ⟨ih1, ih2⟩ := ih (seq + 1) st' s r (by omega) (by omega) hr
          (fun j hj1 hj2 => hb j (by omega) hj2)
        refine ⟨?_, ?_⟩
        · rw [ih1, hsent, List.append_assoc]
          congr 1
          have hrange : List.range' seq (s + 1 - seq) =
              seq :: List.range' (seq + 1) (s - seq) := by
            have : s + 1 - seq = (s - seq) + 1 := by omega
            rw [this, List.range'_succ]
          rw [hrange]
          have : s + 1 - (seq + 1) = s - seq := by omega
          rw [this]
          rfl
        · rw [ih2, hbest]
      cases hou : outcomes seq with
      | reply rtt =>
        rw [hou] at hjr
        simp [HostTryOutcome.is_reply] at hjr
      | sendErr m =>
        unfold hostTryGo
        rw [hou]
        exact hstep _ rfl rfl
      | canceled =>
        unfold hostTryGo
        rw [hou]
        exact hstep _ rfl rfl
      | timeout =>
        unfold hostTryGo
        rw [hou]
        exact hstep _ rfl rfl

/-- C6 amended: the first successful reply ends the per-target send loop,
not just the wait — when the first reply arrives at try `s ≤ count`, the
probes sent are exactly sequences `1..=s` (nothing beyond `s`), and the
recorded RTT is that reply's. -/
theorem C6_first_success_stops (outcomes : Nat → HostTryOutcome)
    (cnt tmo s r : Nat) (h1 : 1 ≤ s) (h2 : s ≤ cnt)
    (hr : outcomes s = .reply r)
    (hb : ∀ j, 1 ≤ j → j < s → (outcomes j).is_reply = false) :
    (host_try_loop outcomes cnt tmo).sent = List.range' 1 s ∧
    (host_try_loop outcomes cnt tmo).best_rtt = some (r % U64_LIMIT) := by
  obtain ⟨hs, hbst⟩ := hostTryGo_first_success outcomes tmo cnt 1
    ⟨none, none, []⟩ s r h1 (by omega) hr hb
  unfold host_try_loop
  constructor
  · rw [hs]
    have : s + 1 - 1 = s := by omega
    rw [this]
    rfl
  · rw [hbst]

/-- C6 amended, witnessed: timeout on try 1, reply on try 2 with count 3 —
tries 1 and 2 are sent, try 3 is not, and the RTT is the try-2 reply's. -/
theorem C6_first_success_stops_witness :
    (host_try_loop c6_outcomes 3 100).sent = List.range' 1 2 ∧
    (host_try_loop c6_outcomes 3 100).best_rtt = some (7 % U64_LIMIT) :=
  C6_first_success_stops c6_outcomes 3 100 2 7 (by omega) (by omega) rfl
    (by
      intro j hj1 hj2
      have hj : j = 1 := by omega
      subst hj
      decide)

/-! ## Theorems for C4 (host-scan partition and progress) -/

/-- A target's progress record always carries that target's IP. -/
theorem host_progress_ip (total cnt tmo i : Nat) (t : HostTarget) :
    (host_progress total cnt tmo i t).ip_addr = t.ip := by
  unfold host_progress
  rcases h : (host_try_loop t.outcomes cnt tmo).best_rtt with _ | rtt <;>
    simp [h]

/-- The `i`-th completing target's progress record carries `done = i + 1`. -/
theorem host_progress_done (total cnt tmo i : Nat) (t : HostTarget) :
    (host_progress total cnt tmo i t).done = i + 1 := by
  unfold host_progress
  rcases h : (host_try_loop t.outcomes cnt tmo).best_rtt with _ | rtt <;>
    simp [h]

/-- Alive and Unreachable filters partition any progress list. -/
theorem hostscan_partition (l : List HostScanProgress) :
    (l.filter (fun p => decide (p.state = .Alive))).length +
      (l.filter (fun p => decide (p.state = .Unreachable))).length =
      l.length := by
  induction l with
  | nil => simp
  | cons a t ih =>
    cases ha : a.state <;> simp [List.filter_cons, ha] <;> omega

/-- The emitted progress events carry exactly the completed targets' IPs in
completion order. -/
theorem host_scan_events_map_ip (targets : List IpAddr)
    (runs : List HostTarget) (cnt tmo : Nat) :
    (host_scan_events targets runs cnt tmo).map (fun p => p.ip_addr) =
      runs.map HostTarget.ip := by
  unfold host_scan_events
  rw [List.map_map]
  have h : ((fun p : HostScanProgress => p.ip_addr) ∘
      fun p : Nat × HostTarget =>
        host_progress targets.length cnt tmo p.1 p.2) =
      (HostTarget.ip ∘ Prod.snd) := by
    funext p
    simp [Function.comp, host_progress_ip]
  rw [h, ← List.map_map, List.enum_map_snd]

/-- The emitted `done` values are `1, 2, …, |runs|` in order. -/
theorem host_scan_events_map_done (targets : List IpAddr)
    (runs : List HostTarget) (cnt tmo : Nat) :
    (host_scan_events targets runs cnt tmo).map (fun p => p.done) =
      List.range' 1 runs.length := by
  unfold host_scan_events
  rw [List.map_map]
  have h : ((fun p : HostScanProgress => p.done) ∘
      fun p : Nat × HostTarget =>
        host_progress targets.length cnt tmo p.1 p.2) =
      ((fun x => x + 1) ∘ Prod.fst) := by
    funext p
    simp [Function.comp, host_progress_done]
  rw [h, ← List.map_map, List.enum_map_fst]
  rw [List.range'_eq_map_range]
  exact List.map_congr_left (fun a _ => Nat.add_comm a 1)

/-- C4: for every host-scan run (over any shuffle and completion order of
the targets), alive and unreachable partition the input — their sizes sum to
`total = |targets|` and every listed IP is a target; each target yields
exactly one progress event, the `done` values are `1..total` in emission
order (hence non-decreasing), and the final `done` equals `total`. -/
theorem C4_host_scan (run_id : String) (targets : List IpAddr)
    (runs : List HostTarget) (cnt tmo : Nat)
    (hperm : (runs.map HostTarget.ip).Perm targets) :
    (host_scan_report run_id targets runs cnt tmo).alive.length +
      (host_scan_report run_id targets runs cnt tmo).unreachable.length =
      (host_scan_report run_id targets runs cnt tmo).total ∧
    (host_scan_report run_id targets runs cnt tmo).total = targets.length ∧
    (∀ pr ∈ (host_scan_report run_id targets runs cnt tmo).alive,
      pr.1 ∈ targets) ∧
    (∀ ip ∈ (host_scan_report run_id targets runs cnt tmo).unreachable,
      ip ∈ targets) ∧
    ((host_scan_events targets runs cnt tmo).map
      (fun p => p.ip_addr)).Perm targets ∧
    (host_scan_events targets runs cnt tmo).map (fun p => p.done) =
      List.range' 1 targets.length ∧
    List.Pairwise (· ≤ ·)
      ((host_scan_events targets runs cnt tmo).map (fun p => p.done)) ∧
    (targets ≠ [] →
      ((host_scan_events targets runs cnt tmo).map
        (fun p => p.done)).getLast? = some targets.length) := by
  have hlen : runs.length = targets.length := by
    have h := hperm.length_eq
    simpa using h
  have hmapip := host_scan_events_map_ip targets runs cnt tmo
  have hmapdone := host_scan_events_map_done targets runs cnt tmo
  have hpermev : ((host_scan_events targets runs cnt tmo).map
      (fun p => p.ip_addr)).Perm targets := by
    rw [hmapip]; exact hperm
  have hevlen : (host_scan_events targets runs cnt tmo).length =
      runs.length := by
    unfold host_scan_events
    rw [List.length_map, List.enum_length]
  refine ⟨?_, rfl, ?_, ?_, hpermev, ?_, ?_, ?_⟩
  · show (((host_scan_events targets runs cnt tmo).filter
        (fun p => decide (p.state = .Alive))).map
        (fun p => (p.ip_addr, p.rtt_ms.getD 0))).length +
      (((host_scan_events targets runs cnt tmo).filter
        (fun p => decide (p.state = .Unreachable))).map
        (fun p => p.ip_addr)).length = targets.length
    rw [List.length_map, List.length_map, hostscan_partition, hevlen, hlen]
  · intro pr hpr
    obtain ⟨p, hpf, rfl⟩ := List.mem_map.mp hpr
    have hpe := List.mem_of_mem_filter hpf
    exact hpermev.mem_iff.mp (List.mem_map_of_mem _ hpe)
  · intro ip hip
    obtain ⟨p, hpf, rfl⟩ := List.mem_map.mp hip
    have hpe := List.mem_of_mem_filter hpf
    exact hpermev.mem_iff.mp (List.mem_map_of_mem _ hpe)
  · rw [hmapdone, hlen]
  · rw [hmapdone]
    exact (List.pairwise_lt_range' 1 runs.length).imp Nat.le_of_lt
  · intro hne
    rw [hmapdone, hlen]
    rcases hn : targets.length with _ | m
    · exact absurd (List.length_eq_zero.mp hn) hne
    · rw [List.range'_concat]
      rw [List.getLast?_concat]
      congr 1
      omega

/-- C4 witnessed on a concrete two-target scan whose completion order is the
reverse of the input order. -/
theorem C4_host_scan_witness :
    (host_scan_report "run0" c4_targets c4_runs 1 100).alive.length +
      (host_scan_report "run0" c4_targets c4_runs 1 100).unreachable.length =
      (host_scan_report "run0" c4_targets c4_runs 1 100).total ∧
    (host_scan_events c4_targets c4_runs 1 100).map (fun p => p.done) =
      List.range' 1 c4_targets.length ∧
    ((host_scan_events c4_targets c4_runs 1 100).map
      (fun p => p.ip_addr)).Perm c4_targets :=
  ⟨(C4_host_scan "run0" c4_targets c4_runs 1 100 (by decide)).1,
   (C4_host_scan "run0" c4_targets c4_runs 1 100 (by decide)).2.2.2.2.2.1,
   (C4_host_scan "run0" c4_targets c4_runs 1 100 (by decide)).2.2.2.2.1⟩

/-! ## Theorems for C5 (traceroute terminal-hop detection) -/

/-- C5: an Echo Reply whose IPv4 source field is 9.9.9.9 terminates a trace
to 1.1.1.1 — `is_echo_reply` accepts it and the receive step records the hop
with `reached = true`, source 9.9.9.9 and `break`s the sweep, even though the
reply does not come from the destination. -/
theorem C5_reached_without_source_check :
    IpAddr.v4 [9, 9, 9, 9] ≠ IpAddr.v4 [1, 1, 1, 1] ∧
    is_echo_reply (.v4 [1, 1, 1, 1]) c5_reply_buf = true ∧
    trace_recv_step (.v4 [1, 1, 1, 1]) ⟨3, none, none, false, none⟩
        (.v4 [9, 9, 9, 9]) c5_reply_buf 10 =
      (⟨3, some (.v4 [9, 9, 9, 9]), some 10, true, none⟩, true) := by
  decide

/-! ## Theorems for C7 (TCP port-scan classification) -/

/-- C7: the TCP connect classification matches the spec's table — success
yields Open with the elapsed RTT and no message; an error yields the
spec-mapped state (TimedOut/NetworkUnreachable/HostUnreachable/
AddrNotAvailable to Filtered; ConnectionRefused/ConnectionReset/NotConnected
to Closed; anything else to Closed), no RTT, and the error's message. -/
theorem C7_tcp_classification (o : ConnectOutcome) :
    (∀ e, o = .ok e →
      classify_tcp_connect o = (.Open, some (e % U64_LIMIT), none)) ∧
    (∀ k m, o = .err k m →
      classify_tcp_connect o = (spec_port_state k, none, some m)) := by
  constructor
  · intro e he
    subst he
    rfl
  · intro k m hkm
    subst hkm
    cases k <;> rfl

/-- C7 witnessed at a success, an enumerated error and an `other` error. -/
theorem C7_tcp_classification_witness :
    classify_tcp_connect (.ok 5) = (.Open, some (5 % U64_LIMIT), none) ∧
    classify_tcp_connect (.err .TimedOut "to") =
      (.Filtered, none, some "to") ∧
    classify_tcp_connect (.err (.other "oops") "m") =
      (.Closed, none, some "m") :=
  ⟨(C7_tcp_classification (.ok 5)).1 5 rfl,
   (C7_tcp_classification (.err .TimedOut "to")).2 .TimedOut "to" rfl,
   (C7_tcp_classification (.err (.other "oops") "m")).2 _ _ rfl⟩

/-! ## Theorems for C10 (port-scan report ordering) -/

/-- Membership in a port insertion. -/
theorem mem_insert_by_port (s x : PortScanSample)
    (l : List PortScanSample) :
    x ∈ insert_by_port s l ↔ x = s ∨ x ∈ l := by
  induction l with
  | nil => simp [insert_by_port]
  | cons t rest ih =>
    unfold insert_by_port
    split
    · simp only [List.mem_cons, ih]
      tauto
    · simp only [List.mem_cons]

/-- Inserting preserves sortedness by port. -/
theorem insert_by_port_sorted (s : PortScanSample) (l : List PortScanSample)
    (h : List.Pairwise (fun a b => a.port ≤ b.port) l) :
    List.Pairwise (fun a b => a.port ≤ b.port) (insert_by_port s l) := by
  induction l with
  | nil => simp [insert_by_port]
  | cons t rest ih =>
    rcases List.pairwise_cons.mp h with ⟨ht, hrest⟩
    unfold insert_by_port
    split
    · rename_i hts
      refine List.pairwise_cons.mpr ⟨?_, ih hrest⟩
      intro x hx
      rcases (mem_insert_by_port s x rest).mp hx with rfl | hx
      · exact hts
      · exact ht x hx
    · rename_i hts
      refine List.pairwise_cons.mpr ⟨?_, h⟩
      intro x hx
      rcases List.mem_cons.mp hx with rfl | hx
      · omega
      · have := ht x hx
        omega

/-- Insertion is a permutation of consing. -/
theorem insert_by_port_perm (s : PortScanSample) (l : List PortScanSample) :
    (insert_by_port s l).Perm (s :: l) := by
  induction l with
  | nil => simp [insert_by_port]
  | cons t rest ih =>
    unfold insert_by_port
    split
    · exact (ih.cons t).trans (List.Perm.swap s t rest)
    · exact List.Perm.refl _

/-- The insertion-sort fold keeps a sorted accumulator sorted. -/
theorem sort_fold_sorted (l : List PortScanSample) :
    ∀ acc, List.Pairwise (fun a b => a.port ≤ b.port) acc →
    List.Pairwise (fun a b => a.port ≤ b.port)
      (l.foldl (fun acc s => insert_by_port s acc) acc) := by
  induction l with
  | nil => intro acc h; exact h
  | cons a t ih =>
    intro acc h
    exact ih _ (insert_by_port_sorted a acc h)

/-- `sort_by_port` sorts. -/
theorem sort_by_port_sorted (l : List PortScanSample) :
    List.Pairwise (fun a b => a.port ≤ b.port) (sort_by_port l) :=
  sort_fold_sorted l [] (by simp)

/-- The insertion-sort fold permutes the accumulator and the input. -/
theorem sort_fold_perm (l : List PortScanSample) :
    ∀ acc, (l.foldl (fun acc s => insert_by_port s acc) acc).Perm
      (acc ++ l) := by
  induction l with
  | nil => intro acc; simp
  | cons a t ih =>
    intro acc
    refine (ih (insert_by_port a acc)).trans ?_
    refine (((insert_by_port_perm a acc).append_right t).trans ?_)
    exact List.perm_middle.symm

/-- `sort_by_port` permutes its input. -/
theorem sort_by_port_perm (l : List PortScanSample) :
    (sort_by_port l).Perm l := by
  simpa using sort_fold_perm l []

/-- Sorted-by-≤ plus distinct ports gives strictly ascending ports. -/
theorem pairwise_lt_of_le_nodup (l : List PortScanSample)
    (hle : List.Pairwise (fun a b => a.port ≤ b.port) l)
    (hnd : (l.map (fun s => s.port)).Nodup) :
    List.Pairwise (fun a b => a.port < b.port) l := by
  have hne : List.Pairwise (fun a b : PortScanSample => a.port ≠ b.port) l :=
    List.pairwise_map.mp hnd
  exact (hle.and hne).imp (fun h => lt_of_le_of_ne h.1 h.2)

/-- Every per-port TCP sample carries its port. -/
theorem tcp_port_sample_port (ip : IpAddr) (total : Nat)
    (connect : Nat → TcpProbeOutcome) (done port : Nat) :
    (tcp_port_sample ip total connect done port).port = port := by
  unfold tcp_port_sample
  rcases connect port with m | o <;> simp

/-- The completion-ordered samples list the arrival ports. -/
theorem tcp_samples_map_port (ip : IpAddr) (ports arrival : List Nat)
    (connect : Nat → TcpProbeOutcome) :
    (tcp_port_scan_samples ip ports arrival connect).map
      (fun s => s.port) = arrival := by
  unfold tcp_port_scan_samples
  rw [List.map_map]
  have h : ((fun s : PortScanSample => s.port) ∘
      fun p : Nat × Nat =>
        tcp_port_sample ip ports.length connect (p.1 + 1) p.2) =
      Prod.snd := by
    funext p
    simp [Function.comp, tcp_port_sample_port]
  rw [h, List.enum_map_snd]

/-- C10 counterexample: a Custom scan of the duplicated port list `[22, 22]`
with both connects succeeding produces a report whose ports are `[22, 22]`
— sorted, but not strictly ascending. -/
theorem C10_counterexample :
    expand_ports .Custom [22, 22] = [22, 22] ∧
    (tcp_port_scan_report_samples (.v4 lo4) [22, 22] [22, 22]
        (fun _ => .conn (.ok 3)) (fun _ => none)).map (fun s => s.port) =
      [22, 22] ∧
    ¬ List.Pairwise (fun a b => a.port < b.port)
      (tcp_port_scan_report_samples (.v4 lo4) [22, 22] [22, 22]
        (fun _ => .conn (.ok 3)) (fun _ => none)) := by
  decide

/-- C10 amended: the TCP report is sorted by ascending port (strictly so
whenever the expanded port list is duplicate-free — every preset except a
Custom list with repeats) and contains only Open samples; the QUIC variant
applies no sorting and keeps completion order, witnessed by a run whose
report ports are `[443, 22]`. -/
theorem C10_port_scan_sorting (ip : IpAddr) (ports arrival : List Nat)
    (connect : Nat → TcpProbeOutcome) (svc : Nat → Option String)
    (hperm : arrival.Perm ports) :
    List.Pairwise (fun a b => a.port ≤ b.port)
      (tcp_port_scan_report_samples ip ports arrival connect svc) ∧
    (∀ s ∈ tcp_port_scan_report_samples ip ports arrival connect svc,
      s.state = .Open) ∧
    (ports.Nodup → List.Pairwise (fun a b => a.port < b.port)
      (tcp_port_scan_report_samples ip ports arrival connect svc)) ∧
    (quic_port_scan_report_samples (.v4 lo4) [443, 22] [443, 22]
        (fun _ => .ok 3) (fun _ => none)).map (fun s => s.port) =
      [443, 22] ∧
    ¬ List.Pairwise (fun a b => a.port ≤ b.port)
      (quic_port_scan_report_samples (.v4 lo4) [443, 22] [443, 22]
        (fun _ => .ok 3) (fun _ => none)) := by
  refine ⟨?_, ?_, ?_, by decide, by decide⟩
  · exact sort_by_port_sorted _
  · intro s hs
    have hmem := (sort_by_port_perm _).mem_iff.mp hs
    obtain ⟨s', hs', rfl⟩ := List.mem_map.mp hmem
    obtain ⟨_, hdec⟩ := List.mem_filter.mp hs'
    exact of_decide_eq_true hdec
  · intro hnd
    apply pairwise_lt_of_le_nodup _ (sort_by_port_sorted _)
    have h1 := ((sort_by_port_perm
      (((tcp_port_scan_samples ip ports arrival connect).filter
        (fun s => decide (s.state = .Open))).map
        (fun s => ⟨s.ip_addr, s.port, s.state, s.rtt_ms, s.message,
          svc s.port, s.done, s.total⟩))).map (fun s => s.port))
    apply h1.nodup_iff.mpr
    rw [List.map_map]
    have h2 : ((fun s : PortScanSample => s.port) ∘
        fun s : PortScanSample =>
          (⟨s.ip_addr, s.port, s.state, s.rtt_ms, s.message, svc s.port,
            s.done, s.total⟩ : PortScanSample)) =
        (fun s : PortScanSample => s.port) := by
      funext s
      rfl
    rw [h2]
    have h3 : (((tcp_port_scan_samples ip ports arrival connect).filter
        (fun s => decide (s.state = .Open))).map
        (fun s : PortScanSample => s.port)).Sublist
        ((tcp_port_scan_samples ip ports arrival connect).map
          (fun s : PortScanSample => s.port)) :=
      (List.filter_sublist _).map _
    have h4 := tcp_samples_map_port ip ports arrival connect
    have h5 : arrival.Nodup := hperm.nodup_iff.mpr hnd
    rw [h4] at h3
    exact h5.sublist h3

/-- C10 amended, witnessed: ports `[22, 443]` arriving in order `[443, 22]`
come out of the TCP report strictly ascending. -/
theorem C10_port_scan_sorting_witness :
    List.Pairwise (fun a b => a.port ≤ b.port)
      (tcp_port_scan_report_samples (.v4 lo4) [22, 443] [443, 22]
        (fun _ => .conn (.ok 3)) (fun _ => none)) ∧
    List.Pairwise (fun a b => a.port < b.port)
      (tcp_port_scan_report_samples (.v4 lo4) [22, 443] [443, 22]
        (fun _ => .conn (.ok 3)) (fun _ => none)) :=
  ⟨(C10_port_scan_sorting (.v4 lo4) [22, 443] [443, 22]
      (fun _ => .conn (.ok 3)) (fun _ => none) (by decide)).1,
   (C10_port_scan_sorting (.v4 lo4) [22, 443] [443, 22]
      (fun _ => .conn (.ok 3)) (fun _ => none) (by decide)).2.2.1
      (by decide)⟩

/-! ## Theorems for C9 (neighbor table robustness) -/

/-- Inserting never breaks key uniqueness: replacement keeps the key set,
appending requires the key to be absent. -/
theorem map_insert_keys_nodup (m : List (IpAddr × Mac)) (k : IpAddr)
    (v : Mac) (h : (m.map Prod.fst).Nodup) :
    ((map_insert m k v).map Prod.fst).Nodup := by
  unfold map_insert
  split
  · have heq : (m.map (fun p => if p.1 = k then (k, v) else p)).map
        Prod.fst = m.map Prod.fst := by
      rw [List.map_map]
      apply List.map_congr_left
      intro p _
      by_cases hp : p.1 = k
      · simp [Function.comp, hp]
      · simp [Function.comp, hp]
    rw [heq]
    exact h
  · rename_i hany
    rw [List.map_append]
    rw [List.nodup_append]
    refine ⟨h, by simp, ?_⟩
    intro x hx hk
    have hxk : x = k := by
      simpa using hk
    subst hxk
    obtain ⟨p, hp, hpk⟩ := List.mem_map.mp hx
    exact hany (List.any_eq_true.mpr ⟨p, hp, by simp [hpk]⟩)

/-- A fold whose every step preserves key uniqueness preserves it. -/
theorem foldl_step_keys_nodup {α : Type}
    (step : List (IpAddr × Mac) → α → List (IpAddr × Mac))
    (hstep : ∀ m a, (m.map Prod.fst).Nodup →
      ((step m a).map Prod.fst).Nodup) (l : List α) :
    ∀ m, (m.map Prod.fst).Nodup →
      ((l.foldl step m).map Prod.fst).Nodup := by
  induction l with
  | nil => intro m h; exact h
  | cons a t ih => intro m h; exact ih _ (hstep m a h)

/-- The netlink decoding step keeps keys unique. -/
theorem neigh_step_nodup (m : List (IpAddr × Mac)) (n : NeighbourMessage)
    (h : (m.map Prod.fst).Nodup) :
    (((match neigh_fold_attrs n.attributes none none with
      | (some ip, some mac6) => map_insert m ip mac6
      | _ => m) : List (IpAddr × Mac)).map Prod.fst).Nodup := by
  rcases h2 : neigh_fold_attrs n.attributes none none with ⟨oi, om⟩
  rcases oi with _ | ip <;> rcases om with _ | mac6 <;> simp only []
  · exact h
  · exact h
  · exact h
  · exact map_insert_keys_nodup m ip mac6 h

/-- A `/proc/net/arp` line keeps keys unique. -/
theorem read_proc_line_nodup (m : List (IpAddr × Mac)) (line : String)
    (h : (m.map Prod.fst).Nodup) :
    ((read_proc_line m line).map Prod.fst).Nodup := by
  unfold read_proc_line proc_cols_insert
  split
  · exact h
  · split
    · exact h
    · rcases hip : parse_ipv4_str _ with _ | ip <;>
        rcases hmac : parse_mac_str _ with _ | mac6 <;>
        simp only [hip, hmac]
      · exact h
      · exact h
      · exact h
      · exact map_insert_keys_nodup m ip mac6 h

/-- The decoded netlink map has unique keys. -/
theorem neighs_to_map_nodup (ns : List NeighbourMessage)
    (mm : List (IpAddr × Mac)) (hmm : neighs_to_map ns = .ok mm) :
    (mm.map Prod.fst).Nodup := by
  unfold neighs_to_map at hmm
  injection hmm with hmm
  subst hmm
  exact foldl_step_keys_nodup _ (fun m n h => neigh_step_nodup m n h) ns []
    (by simp)

/-- The `/proc/net/arp` map has unique keys. -/
theorem read_proc_nodup (ls : List String) (mm : List (IpAddr × Mac))
    (hmm : read_proc_net_arp (.ok ls) = .ok mm) :
    (mm.map Prod.fst).Nodup := by
  unfold read_proc_net_arp at hmm
  injection hmm with hmm
  subst hmm
  exact foldl_step_keys_nodup _
    (fun m line h => read_proc_line_nodup m line h) _ [] (by simp)

/-- The fallback never errors, keeps keys unique, and is empty when the
file read failed. -/
theorem get_neighbor_fallback_spec (proc : Except String (List String)) :
    (get_neighbor_fallback proc).isOk = true ∧
    (∀ m, get_neighbor_fallback proc = .ok m → (m.map Prod.fst).Nodup) ∧
    (∀ e, proc = .error e → get_neighbor_fallback proc = .ok []) := by
  rcases proc with e | ls
  · refine ⟨rfl, ?_, fun e2 _ => rfl⟩
    intro m hm
    have h2 : (Except.ok ([] : List (IpAddr × Mac)) :
        Except String (List (IpAddr × Mac))) = .ok m := hm
    injection h2 with h3
    rw [← h3]
    simp
  · refine ⟨?_, ?_, fun e2 h => by cases h⟩
    · unfold get_neighbor_fallback
      rcases hm : read_proc_net_arp (.ok ls) with e2 | mm
      · exact absurd hm (by simp [read_proc_net_arp])
      · show (if mm ≠ [] then Except.ok mm
          else Except.ok ([] : List (IpAddr × Mac))).isOk = true
        split <;> rfl
    · intro m hm2
      unfold get_neighbor_fallback at hm2
      rcases hm : read_proc_net_arp (.ok ls) with e2 | mm <;> rw [hm] at hm2
      · exact absurd hm (by simp [read_proc_net_arp])
      · have hm3 : (if mm ≠ [] then Except.ok mm
            else Except.ok ([] : List (IpAddr × Mac))) = Except.ok m := hm2
        split at hm3
        · injection hm3 with h3
          subst h3
          exact read_proc_nodup ls mm hm
        · injection hm3 with h3
          rw [← h3]
          simp

/-- The netlink arm never errors and keeps keys unique. -/
theorem get_neighbor_from_netlink_spec
    (r : Except String (List (IpAddr × Mac)))
    (proc : Except String (List String))
    (hr : ∀ m, r = .ok m → (m.map Prod.fst).Nodup) :
    (get_neighbor_from_netlink r proc).isOk = true ∧
    (∀ m, get_neighbor_from_netlink r proc = .ok m →
      (m.map Prod.fst).Nodup) := by
  obtain ⟨hfb1, hfb2, _⟩ := get_neighbor_fallback_spec proc
  rcases r with e | mm
  · exact ⟨hfb1, fun m hm => hfb2 m hm⟩
  · constructor
    · show (if mm ≠ [] then Except.ok mm
        else get_neighbor_fallback proc).isOk = true
      split
      · rfl
      · exact hfb1
    · intro m hm
      have hm3 : (if mm ≠ [] then Except.ok mm
          else get_neighbor_fallback proc) = Except.ok m := hm
      split at hm3
      · injection hm3 with h3
        subst h3
        exact hr _ rfl
      · exact hfb2 m hm3

/-- C9: on Linux, `get_neighbor_table` never returns `Err` for any outcome
of the netlink dump and the `/proc/net/arp` read; the returned mapping has
unique IP keys; the decoding stages themselves never error (malformed
records are skipped); and when the netlink path errors and `/proc/net/arp`
is unreadable the result is `Ok` with the empty mapping. -/
theorem C9_neighbor_table (netlink : Except String (List NeighbourMessage))
    (proc : Except String (List String)) :
    (get_neighbor_table netlink proc).isOk = true ∧
    (∀ m, get_neighbor_table netlink proc = .ok m →
      (m.map Prod.fst).Nodup) ∧
    (∀ ns, (neighs_to_map ns).isOk = true) ∧
    (∀ ls, (read_proc_net_arp (.ok ls)).isOk = true) ∧
    (∀ e e', netlink = .error e → proc = .error e' →
      get_neighbor_table netlink proc = .ok []) := by
  obtain ⟨hfb1, hfb2, hfb3⟩ := get_neighbor_fallback_spec proc
  refine ⟨?_, ?_, fun ns => rfl, fun ls => rfl, ?_⟩
  · unfold get_neighbor_table
    rcases netlink with e | neighs
    · exact hfb1
    · exact (get_neighbor_from_netlink_spec (neighs_to_map neighs) proc
        (fun m hm => neighs_to_map_nodup neighs m hm)).1
  · intro m hm
    unfold get_neighbor_table at hm
    rcases netlink with e | neighs
    · exact hfb2 m hm
    · exact (get_neighbor_from_netlink_spec (neighs_to_map neighs) proc
        (fun m2 hm2 => neighs_to_map_nodup neighs m2 hm2)).2 m hm
  · intro e e2 hn hp
    subst hn
    unfold get_neighbor_table
    exact hfb3 e2 hp

/-- C9 witnessed: total failure yields the empty mapping, and a successful
netlink dump yields a unique-keyed mapping. -/
theorem C9_neighbor_table_witness :
    get_neighbor_table (Except.error "netlink send failed")
      (Except.error "no such file") = .ok [] ∧
    (([(IpAddr.v4 [192, 168, 0, 1], [1, 2, 3, 4, 5, 6])] :
      List (IpAddr × Mac)).map Prod.fst).Nodup :=
  ⟨(C9_neighbor_table (Except.error "netlink send failed")
      (Except.error "no such file")).2.2.2.2 "netlink send failed"
      "no such file" rfl rfl,
   (C9_neighbor_table
      (Except.ok [⟨[.Destination (.Inet [192, 168, 0, 1]),
        .LinkLocalAddress [1, 2, 3, 4, 5, 6]]⟩])
      (Except.error "nofile")).2.1 _ rfl⟩

end NetPulsar
